import Mathlib

/-!
# Verification of the sales_app message-lifecycle engine

Shallow embedding of the lifecycle core of the repository:

* `src/models.rs` — `MessageStatus`, `Lead`, `Message`, `OutreachLog`;
* `src/handlers.rs` — `create_lead`, `send_message`, `reply_to_message`,
  `ai_reply`, `log_outreach`;
* `src/scheduler.rs` — the four scan cycles `process_enqueued_messages`,
  `process_ai_enqueued_messages`, `process_follow_up_messages`,
  `process_closed_messages`.

Modelling conventions:

* The SQLite database is a `Store`: lists of rows plus the autoincrement
  counters for the two surrogate keys the core allocates.
* Timestamps are produced as `Utc::now().to_rfc3339()` strings and compared
  with SQL string comparison; RFC3339 UTC strings of this fixed format order
  lexicographically exactly as chronologically, so timestamps are modelled as
  `Nat`.
* Row ids are `i64` primary keys, always positive; modelled as `Nat`.
* `UPDATE … WHERE id = ?` applies its SET clause to every row whose id
  matches, exactly as in SQL.
* Each handler / cycle is modelled on its storage success path; variants with
  an explicit failure injection (`_fi`, one flag per fallible statement) and
  with the candidate SELECT's outcome made explicit (`_q`) model the error
  branches the code actually has (`Err(e) => error!(…)` skip-and-continue,
  `unwrap_or_default()`).
-/

namespace SalesApp

/-- `MessageStatus` from src/models.rs. -/
inductive MessageStatus
  | Enqueued
  | Sent
  | Replied
  | AiEnqueued
  | AiReplied
  | FollowUp
  | Closed
deriving DecidableEq, Repr

/-- `MessageStatus::as_str` from src/models.rs. -/
def MessageStatus.as_str : MessageStatus → String
  | .Enqueued => "enqueued"
  | .Sent => "sent"
  | .Replied => "replied"
  | .AiEnqueued => "ai_enqueued"
  | .AiReplied => "ai_replied"
  | .FollowUp => "follow_up"
  | .Closed => "closed"

/-- `Lead` from src/models.rs. -/
structure Lead where
  id : Nat
  name : String
  email : Option String
  phone : Option String
deriving DecidableEq, Repr

/-- `Message` from src/models.rs: one row of the `messages` table.  The
`status` column is stored as a free string at the storage boundary, as in the
code. -/
structure Message where
  id : Nat
  leads_id : Nat
  message_sent : Option String
  sent_at : Option Nat
  reply_received : Option String
  reply_received_at : Option Nat
  ai_reply : Option String
  ai_reply_sent : Option Nat
  created_at : Nat
  status : String
  follow_up_at : Option Nat
  closed_at : Option Nat
deriving DecidableEq, Repr

/-- `OutreachLog` from src/models.rs: one row of the append-only
`outreach_log` table. -/
structure OutreachLog where
  id : Nat
  message_id : Nat
  log_at : Nat
  step : String
deriving DecidableEq, Repr

/-- The durable state: the three relations of the schema plus the
autoincrement counters for the ids the core allocates. -/
structure Store where
  leads : List Lead
  messages : List Message
  outreach_log : List OutreachLog
  next_lead_id : Nat
  next_message_id : Nat
deriving DecidableEq, Repr

/-- `log_outreach` from src/handlers.rs, success path:
`INSERT INTO outreach_log (message_id, log_at, step) VALUES (?, ?, ?)`.
The row id is assigned by the store. -/
def log_outreach (now : Nat) (message_id : Nat) (status : MessageStatus) (s : Store) : Store :=
  { s with outreach_log :=
      s.outreach_log ++
        [{ id := s.outreach_log.length + 1, message_id := message_id,
           log_at := now, step := status.as_str }] }

/-- `UPDATE messages SET … WHERE id = ?`: applies the SET clause `f` to every
row whose id matches. -/
def updateMessage (mid : Nat) (f : Message → Message) (s : Store) : Store :=
  { s with messages := s.messages.map (fun m => if m.id = mid then f m else m) }

/-- `Duration::hours(24)` from src/scheduler.rs, in the time unit of the
model. -/
def hours24 : Nat := 86400

/-- The candidate SELECT of `process_enqueued_messages`:
`SELECT id FROM messages WHERE status = 'enqueued'`. -/
def enqueuedCandidates (s : Store) : List Nat :=
  (s.messages.filter (fun m => m.status == MessageStatus.Enqueued.as_str)).map (fun m => m.id)

/-- The candidate SELECT of `process_ai_enqueued_messages`:
`SELECT id FROM messages WHERE status = 'ai_enqueued'`. -/
def aiEnqueuedCandidates (s : Store) : List Nat :=
  (s.messages.filter (fun m => m.status == MessageStatus.AiEnqueued.as_str)).map (fun m => m.id)

/-- The WHERE clause of the follow-up candidate SELECT in
`process_follow_up_messages`: `sent_at IS NOT NULL AND sent_at < cutoff AND
reply_received IS NULL AND reply_received_at IS NULL AND follow_up_at IS NULL
AND closed_at IS NULL`, with `cutoff = now - 24h`. -/
def followUpEligible (cutoff : Nat) (m : Message) : Bool :=
  (match m.sent_at with
   | some t => decide (t < cutoff)
   | none => false)
  && m.reply_received.isNone && m.reply_received_at.isNone
  && m.follow_up_at.isNone && m.closed_at.isNone

/-- The candidate SELECT of `process_follow_up_messages`. -/
def followUpCandidates (cutoff : Nat) (s : Store) : List Nat :=
  (s.messages.filter (followUpEligible cutoff)).map (fun m => m.id)

/-- The WHERE clause of the close candidate SELECT in
`process_closed_messages`: `follow_up_at IS NOT NULL AND follow_up_at <
cutoff AND reply_received IS NULL AND reply_received_at IS NULL AND closed_at
IS NULL`, with `cutoff = now - 24h`. -/
def closedEligible (cutoff : Nat) (m : Message) : Bool :=
  (match m.follow_up_at with
   | some t => decide (t < cutoff)
   | none => false)
  && m.reply_received.isNone && m.reply_received_at.isNone && m.closed_at.isNone

/-- The candidate SELECT of `process_closed_messages`. -/
def closedCandidates (cutoff : Nat) (s : Store) : List Nat :=
  (s.messages.filter (closedEligible cutoff)).map (fun m => m.id)

/-- SET clause of the UPDATE in `process_enqueued_messages`:
`SET status = 'sent', sent_at = now`. -/
def sentUpdate (now : Nat) (m : Message) : Message :=
  { m with status := MessageStatus.Sent.as_str, sent_at := some now }

/-- SET clause of the UPDATE in `process_ai_enqueued_messages`:
`SET status = 'ai_replied', ai_reply_sent = now`. -/
def aiRepliedUpdate (now : Nat) (m : Message) : Message :=
  { m with status := MessageStatus.AiReplied.as_str, ai_reply_sent := some now }

/-- SET clause of the UPDATE in `process_follow_up_messages`:
`SET status = 'follow_up', follow_up_at = now`. -/
def followUpUpdate (now : Nat) (m : Message) : Message :=
  { m with status := MessageStatus.FollowUp.as_str, follow_up_at := some now }

/-- SET clause of the UPDATE in `process_closed_messages`:
`SET status = 'closed', closed_at = now`. -/
def closedUpdate (now : Nat) (m : Message) : Message :=
  { m with status := MessageStatus.Closed.as_str, closed_at := some now }

/-- `process_enqueued_messages` from src/scheduler.rs, success path: the
candidate list is snapshotted by the SELECT, then each candidate is updated
and logged in turn.  (The source's early return on an empty candidate list is
the fold over the empty list.) -/
def process_enqueued_messages (now : Nat) (s : Store) : Store :=
  (enqueuedCandidates s).foldl
    (fun st mid =>
      log_outreach now mid MessageStatus.Sent (updateMessage mid (sentUpdate now) st)) s

/-- `process_ai_enqueued_messages` from src/scheduler.rs, success path. -/
def process_ai_enqueued_messages (now : Nat) (s : Store) : Store :=
  (aiEnqueuedCandidates s).foldl
    (fun st mid =>
      log_outreach now mid MessageStatus.AiReplied (updateMessage mid (aiRepliedUpdate now) st)) s

/-- `process_follow_up_messages` from src/scheduler.rs, success path:
`cutoff = now - Duration::hours(24)`. -/
def process_follow_up_messages (now : Nat) (s : Store) : Store :=
  (followUpCandidates (now - hours24) s).foldl
    (fun st mid =>
      log_outreach now mid MessageStatus.FollowUp (updateMessage mid (followUpUpdate now) st)) s

/-- `process_closed_messages` from src/scheduler.rs, success path. -/
def process_closed_messages (now : Nat) (s : Store) : Store :=
  (closedCandidates (now - hours24) s).foldl
    (fun st mid =>
      log_outreach now mid MessageStatus.Closed (updateMessage mid (closedUpdate now) st)) s

/-- The error taxonomy visible at the API boundary (src/handlers.rs maps
these to 404 / 400 / 500 responses). -/
inductive ApiErr
  | NotFound
  | BadRequest
  | ServerError
deriving DecidableEq, Repr

/-- Rust's `payload.name.trim().is_empty()`: a string trims to empty exactly
when every character is whitespace.  Stated on the character list so that it
evaluates by reduction. -/
def trimIsEmpty (s : String) : Bool :=
  s.toList.all (fun c => c.isWhitespace)

/-- `create_lead` from src/handlers.rs, success path: validation, then
`INSERT INTO leads … RETURNING …`. -/
def create_lead (name : String) (email phone : Option String) (s : Store) :
    Except ApiErr (Store × Lead) :=
  if trimIsEmpty name then .error .BadRequest
  else if email.isNone && phone.isNone then .error .BadRequest
  else
    let lead : Lead := { id := s.next_lead_id, name := name, email := email, phone := phone }
    .ok ({ s with leads := s.leads ++ [lead], next_lead_id := s.next_lead_id + 1 }, lead)

/-- `send_message` from src/handlers.rs (the CreateMessage boundary
operation), success path: lead existence check by COUNT, then INSERT of an
`enqueued` message and the "enqueued" audit row. -/
def send_message (now : Nat) (lead_id : Nat) (message : String) (s : Store) :
    Except ApiErr (Store × Message) :=
  if (s.leads.filter (fun l => l.id == lead_id)).length = 0 then .error .NotFound
  else
    let msg : Message :=
      { id := s.next_message_id, leads_id := lead_id, message_sent := some message,
        sent_at := none, reply_received := none, reply_received_at := none,
        ai_reply := none, ai_reply_sent := none, created_at := now,
        status := MessageStatus.Enqueued.as_str, follow_up_at := none, closed_at := none }
    let st := { s with messages := s.messages ++ [msg],
                       next_message_id := s.next_message_id + 1 }
    .ok (log_outreach now msg.id MessageStatus.Enqueued st, msg)

/-- SET clause of the UPDATE in `reply_to_message`:
`SET reply_received = ?, reply_received_at = now, status = 'replied'`. -/
def repliedUpdate (now : Nat) (reply : String) (m : Message) : Message :=
  { m with reply_received := some reply, reply_received_at := some now,
           status := MessageStatus.Replied.as_str }

/-- `reply_to_message` from src/handlers.rs (the RecordReply boundary
operation), success path: `UPDATE … WHERE id = ? RETURNING …` with
`fetch_optional` — no matching row means NotFound, a matching row is updated
unconditionally (no precondition on the current status). -/
def reply_to_message (now : Nat) (message_id : Nat) (reply : String) (s : Store) :
    Except ApiErr (Store × Message) :=
  match s.messages.find? (fun m => m.id == message_id) with
  | none => .error .NotFound
  | some m =>
      .ok (log_outreach now message_id MessageStatus.Replied
             (updateMessage message_id (repliedUpdate now reply) s),
           repliedUpdate now reply m)

/-- The fixed placeholder reply text of `ai_reply` in src/handlers.rs. -/
def ai_response : String := "Thank you for your interest! Our team will follow up shortly."

/-- SET clause of the UPDATE in `ai_reply`:
`SET ai_reply = ?, status = 'ai_enqueued'`. -/
def aiEnqueuedUpdate (m : Message) : Message :=
  { m with ai_reply := some ai_response, status := MessageStatus.AiEnqueued.as_str }

/-- `ai_reply` from src/handlers.rs (the RequestAiReply boundary operation),
success path: unconditional `UPDATE … WHERE id = ? RETURNING …`. -/
def ai_reply (now : Nat) (message_id : Nat) (s : Store) : Except ApiErr (Store × Message) :=
  match s.messages.find? (fun m => m.id == message_id) with
  | none => .error .NotFound
  | some m =>
      .ok (log_outreach now message_id MessageStatus.AiEnqueued
             (updateMessage message_id aiEnqueuedUpdate s),
           aiEnqueuedUpdate m)

/-- One trigger of state change: an API call or one scan cycle.  These are the
only writers of the store in the repository. -/
inductive Op
  | createLead (name : String) (email phone : Option String)
  | createMessage (lead_id : Nat) (text : String)
  | recordReply (message_id : Nat) (reply : String)
  | requestAiReply (message_id : Nat)
  | scanEnqueued
  | scanAiEnqueued
  | scanFollowUp
  | scanClosed
deriving DecidableEq, Repr

/-- The store after one trigger at time `now`; an API call that returns an
error leaves the store as it was. -/
def applyOp (op : Op) (now : Nat) (s : Store) : Store :=
  match op with
  | .createLead n e p =>
      match create_lead n e p s with
      | .ok (st, _) => st
      | .error _ => s
  | .createMessage lid text =>
      match send_message now lid text s with
      | .ok (st, _) => st
      | .error _ => s
  | .recordReply mid r =>
      match reply_to_message now mid r s with
      | .ok (st, _) => st
      | .error _ => s
  | .requestAiReply mid =>
      match ai_reply now mid s with
      | .ok (st, _) => st
      | .error _ => s
  | .scanEnqueued => process_enqueued_messages now s
  | .scanAiEnqueued => process_ai_enqueued_messages now s
  | .scanFollowUp => process_follow_up_messages now s
  | .scanClosed => process_closed_messages now s

/-- The freshly migrated database: empty relations, autoincrement counters at
1. -/
def emptyStore : Store :=
  { leads := [], messages := [], outreach_log := [], next_lead_id := 1, next_message_id := 1 }

/-- The reachable states of the system: any interleaving of triggers with a
monotone wall clock, starting from the empty database. -/
inductive Reachable : Store → Nat → Prop
  | init : Reachable emptyStore 0
  | step {s : Store} {t t2 : Nat} (op : Op) :
      Reachable s t → t ≤ t2 → Reachable (applyOp op t2 s) t2

/-!
## Failure-injected variants

The scheduler's per-candidate loop matches on the UPDATE's result: on `Err`
it only reports (`error!`) and continues with the next candidate, and only on
`Ok` does it call `log_outreach`, whose own `INSERT` failure is likewise only
reported (fire-and-forget).  `uf mid` / `lf mid` say whether the UPDATE /
the log INSERT for that candidate errors.
-/

/-- `process_enqueued_messages` with storage failures injected. -/
def process_enqueued_messages_fi (now : Nat) (uf lf : Nat → Bool) (s : Store) : Store :=
  (enqueuedCandidates s).foldl
    (fun st mid =>
      if uf mid then st
      else if lf mid then updateMessage mid (sentUpdate now) st
      else log_outreach now mid MessageStatus.Sent (updateMessage mid (sentUpdate now) st)) s

/-- `process_ai_enqueued_messages` with storage failures injected. -/
def process_ai_enqueued_messages_fi (now : Nat) (uf lf : Nat → Bool) (s : Store) : Store :=
  (aiEnqueuedCandidates s).foldl
    (fun st mid =>
      if uf mid then st
      else if lf mid then updateMessage mid (aiRepliedUpdate now) st
      else log_outreach now mid MessageStatus.AiReplied (updateMessage mid (aiRepliedUpdate now) st)) s

/-- `process_follow_up_messages` with storage failures injected. -/
def process_follow_up_messages_fi (now : Nat) (uf lf : Nat → Bool) (s : Store) : Store :=
  (followUpCandidates (now - hours24) s).foldl
    (fun st mid =>
      if uf mid then st
      else if lf mid then updateMessage mid (followUpUpdate now) st
      else log_outreach now mid MessageStatus.FollowUp (updateMessage mid (followUpUpdate now) st)) s

/-- `process_closed_messages` with storage failures injected. -/
def process_closed_messages_fi (now : Nat) (uf lf : Nat → Bool) (s : Store) : Store :=
  (closedCandidates (now - hours24) s).foldl
    (fun st mid =>
      if uf mid then st
      else if lf mid then updateMessage mid (closedUpdate now) st
      else log_outreach now mid MessageStatus.Closed (updateMessage mid (closedUpdate now) st)) s

/-- `reply_to_message` with storage failures injected (`uf`: the UPDATE
errors, surfaced as a 500 with no state change; `lf`: the log INSERT errors,
fire-and-forget).  The store is returned alongside the HTTP result so the
state on every path is visible. -/
def reply_to_message_fi (now : Nat) (message_id : Nat) (reply : String) (uf lf : Bool)
    (s : Store) : Store × Except ApiErr Message :=
  match s.messages.find? (fun m => m.id == message_id) with
  | none => (s, .error .NotFound)
  | some m =>
      if uf then (s, .error .ServerError)
      else if lf then
        (updateMessage message_id (repliedUpdate now reply) s, .ok (repliedUpdate now reply m))
      else
        (log_outreach now message_id MessageStatus.Replied
           (updateMessage message_id (repliedUpdate now reply) s),
         .ok (repliedUpdate now reply m))

/-- `ai_reply` with storage failures injected, as for `reply_to_message_fi`. -/
def ai_reply_fi (now : Nat) (message_id : Nat) (uf lf : Bool) (s : Store) :
    Store × Except ApiErr Message :=
  match s.messages.find? (fun m => m.id == message_id) with
  | none => (s, .error .NotFound)
  | some m =>
      if uf then (s, .error .ServerError)
      else if lf then
        (updateMessage message_id aiEnqueuedUpdate s, .ok (aiEnqueuedUpdate m))
      else
        (log_outreach now message_id MessageStatus.AiEnqueued
           (updateMessage message_id aiEnqueuedUpdate s),
         .ok (aiEnqueuedUpdate m))

/-!
## Variants with the candidate SELECT's outcome made explicit

Each scan cycle runs `fetch_all(pool).await.unwrap_or_default()`: an `Err`
from the candidate query is replaced by the empty candidate list and the
cycle returns normally (the cycles return `()`; no error can propagate).
-/

/-- `process_enqueued_messages` with the SELECT's outcome `q` explicit. -/
def process_enqueued_messages_q (q : Except String (List Nat)) (now : Nat) (s : Store) : Store :=
  (match q with
   | .ok v => v
   | .error _ => ([] : List Nat)).foldl
    (fun st mid =>
      log_outreach now mid MessageStatus.Sent (updateMessage mid (sentUpdate now) st)) s

/-- `process_ai_enqueued_messages` with the SELECT's outcome `q` explicit. -/
def process_ai_enqueued_messages_q (q : Except String (List Nat)) (now : Nat) (s : Store) :
    Store :=
  (match q with
   | .ok v => v
   | .error _ => ([] : List Nat)).foldl
    (fun st mid =>
      log_outreach now mid MessageStatus.AiReplied (updateMessage mid (aiRepliedUpdate now) st)) s

/-- `process_follow_up_messages` with the SELECT's outcome `q` explicit. -/
def process_follow_up_messages_q (q : Except String (List Nat)) (now : Nat) (s : Store) : Store :=
  (match q with
   | .ok v => v
   | .error _ => ([] : List Nat)).foldl
    (fun st mid =>
      log_outreach now mid MessageStatus.FollowUp (updateMessage mid (followUpUpdate now) st)) s

/-- `process_closed_messages` with the SELECT's outcome `q` explicit. -/
def process_closed_messages_q (q : Except String (List Nat)) (now : Nat) (s : Store) : Store :=
  (match q with
   | .ok v => v
   | .error _ => ([] : List Nat)).foldl
    (fun st mid =>
      log_outreach now mid MessageStatus.Closed (updateMessage mid (closedUpdate now) st)) s

/-!
## Spec-side definitions

These two definitions formalise wording of the claims (the lifecycle order
and the status/timestamp invariant); they are stated from the spec, to be
compared with the behaviour of the definitions above. -/

/-- Rank of a status string in the spec's lifecycle order
`Enqueued → Sent → {Replied | AiEnqueued} → AiReplied → FollowUp → Closed`
(the two alternatives after `Sent` share a rank). -/
def specStatusRank (st : String) : Nat :=
  if st = "enqueued" then 0
  else if st = "sent" then 1
  else if st = "replied" then 2
  else if st = "ai_enqueued" then 2
  else if st = "ai_replied" then 3
  else if st = "follow_up" then 4
  else if st = "closed" then 5
  else 0

/-- The claimed status/timestamp invariant: `closed_at` is non-null only if
the status is `Closed`, and `follow_up_at` is non-null only if the status
does not precede `FollowUp` in the lifecycle order. -/
def statusTimestampInv (s : Store) : Prop :=
  ∀ m ∈ s.messages,
    (m.closed_at ≠ none → m.status = MessageStatus.Closed.as_str)
    ∧ (m.follow_up_at ≠ none → 4 ≤ specStatusRank m.status)

/-!
## Basic frame lemmas
-/

theorem log_outreach_messages (now mid : Nat) (st : MessageStatus) (s : Store) :
    (log_outreach now mid st s).messages = s.messages := rfl

theorem updateMessage_messages (mid : Nat) (f : Message → Message) (s : Store) :
    (updateMessage mid f s).messages
      = s.messages.map (fun m => if m.id = mid then f m else m) := rfl

/-- The per-candidate loop of a scan cycle, characterised on the `messages`
relation: a row is rewritten by the SET clause `f` exactly when its id is
among the processed candidates (for an id-preserving, idempotent `f`). -/
theorem scan_foldl_messages (f : Message → Message) (ls : MessageStatus) (now : Nat)
    (hidem : ∀ m, f (f m) = f m) :
    ∀ (l : List Nat) (s : Store),
      ((l.foldl (fun st mid => log_outreach now mid ls (updateMessage mid f st)) s)).messages
        = s.messages.map (fun m => if m.id ∈ l then f m else m) := by
  intro l
  induction l with
  | nil =>
      intro s
      simp
  | cons c cs ih =>
      intro s
      rw [List.foldl_cons, ih, log_outreach_messages, updateMessage_messages, List.map_map]
      apply List.map_congr_left
      intro m _
      by_cases hc : m.id = c
      · simp only [Function.comp_apply, if_pos hc]
        by_cases hcs : (f m).id ∈ cs
        · rw [if_pos hcs, hidem, if_pos (by simp [hc])]
        · rw [if_neg hcs, if_pos (by simp [hc])]
      · simp only [Function.comp_apply, if_neg hc]
        by_cases hcs : m.id ∈ cs
        · rw [if_pos hcs, if_pos (by simp [hcs])]
        · rw [if_neg hcs, if_neg (by simp [hc, hcs])]

/-- The per-candidate loop touches neither the `leads` relation nor either
autoincrement counter. -/
theorem scan_foldl_frame (f : Message → Message) (ls : MessageStatus) (now : Nat) :
    ∀ (l : List Nat) (s : Store),
      ((l.foldl (fun st mid => log_outreach now mid ls (updateMessage mid f st)) s)).leads
          = s.leads
      ∧ ((l.foldl (fun st mid => log_outreach now mid ls (updateMessage mid f st)) s)).next_lead_id
          = s.next_lead_id
      ∧ ((l.foldl
            (fun st mid => log_outreach now mid ls (updateMessage mid f st)) s)).next_message_id
          = s.next_message_id := by
  intro l
  induction l with
  | nil =>
      intro s
      exact ⟨rfl, rfl, rfl⟩
  | cons c cs ih =>
      intro s
      rw [List.foldl_cons]
      exact ih (log_outreach now c ls (updateMessage c f s))

theorem sentUpdate_id (now : Nat) (m : Message) : (sentUpdate now m).id = m.id := rfl

theorem aiRepliedUpdate_id (now : Nat) (m : Message) : (aiRepliedUpdate now m).id = m.id := rfl

theorem followUpUpdate_id (now : Nat) (m : Message) : (followUpUpdate now m).id = m.id := rfl

theorem closedUpdate_id (now : Nat) (m : Message) : (closedUpdate now m).id = m.id := rfl

theorem process_enqueued_messages_messages (now : Nat) (s : Store) :
    (process_enqueued_messages now s).messages
      = s.messages.map
          (fun m => if m.id ∈ enqueuedCandidates s then sentUpdate now m else m) :=
  scan_foldl_messages (sentUpdate now) MessageStatus.Sent now
    (fun _ => rfl) (enqueuedCandidates s) s

theorem process_ai_enqueued_messages_messages (now : Nat) (s : Store) :
    (process_ai_enqueued_messages now s).messages
      = s.messages.map
          (fun m => if m.id ∈ aiEnqueuedCandidates s then aiRepliedUpdate now m else m) :=
  scan_foldl_messages (aiRepliedUpdate now) MessageStatus.AiReplied now
    (fun _ => rfl) (aiEnqueuedCandidates s) s

theorem process_follow_up_messages_messages (now : Nat) (s : Store) :
    (process_follow_up_messages now s).messages
      = s.messages.map
          (fun m =>
            if m.id ∈ followUpCandidates (now - hours24) s then followUpUpdate now m else m) :=
  scan_foldl_messages (followUpUpdate now) MessageStatus.FollowUp now
    (fun _ => rfl) (followUpCandidates (now - hours24) s) s

theorem process_closed_messages_messages (now : Nat) (s : Store) :
    (process_closed_messages now s).messages
      = s.messages.map
          (fun m =>
            if m.id ∈ closedCandidates (now - hours24) s then closedUpdate now m else m) :=
  scan_foldl_messages (closedUpdate now) MessageStatus.Closed now
    (fun _ => rfl) (closedCandidates (now - hours24) s) s

/-- Membership in a candidate list of the form
`(messages.filter p).map (fun m => m.id)`, read back onto a given row when
ids are unique. -/
theorem prop_of_mem_cand {p : Message → Bool} {s : Store} {m : Message}
    (hn : (s.messages.map (fun m => m.id)).Nodup) (hm : m ∈ s.messages)
    (hid : m.id ∈ (s.messages.filter p).map (fun m => m.id)) : p m = true := by
  rcases List.mem_map.1 hid with ⟨m0, hm0, hid0⟩
  rcases List.mem_filter.1 hm0 with ⟨hm0s, hp0⟩
  have heq : m0 = m := List.inj_on_of_nodup_map hn hm0s hm hid0
  exact heq ▸ hp0

theorem mem_cand_of_prop {p : Message → Bool} {s : Store} {m : Message}
    (hm : m ∈ s.messages) (hp : p m = true) :
    m.id ∈ (s.messages.filter p).map (fun m => m.id) :=
  List.mem_map.2 ⟨m, List.mem_filter.2 ⟨hm, hp⟩, rfl⟩

/-- In the failure-injected per-candidate loop, any audit row of the result
either was already present or belongs to a processed candidate whose UPDATE
and whose log INSERT both succeeded: the loop never appends an audit row for
a candidate whose `Message` update failed. -/
theorem fi_foldl_log_mem (f : Message → Message) (ls : MessageStatus) (now : Nat)
    (uf lf : Nat → Bool) :
    ∀ (l : List Nat) (s : Store) (e : OutreachLog),
      e ∈ ((l.foldl
             (fun st mid =>
               if uf mid then st
               else if lf mid then updateMessage mid f st
               else log_outreach now mid ls (updateMessage mid f st)) s)).outreach_log →
      e ∈ s.outreach_log
        ∨ (e.message_id ∈ l ∧ uf e.message_id = false ∧ lf e.message_id = false) := by
  intro l
  induction l with
  | nil =>
      intro s e he
      exact Or.inl he
  | cons c cs ih =>
      intro s e he
      rw [List.foldl_cons] at he
      rcases huf : uf c with _ | _
      · rcases hlf : lf c with _ | _
        · rw [if_neg (by simp [huf]), if_neg (by simp [hlf])] at he
          rcases ih _ e he with h1 | ⟨h1, h2, h3⟩
          · rcases List.mem_append.1 h1 with h2 | h2
            · exact Or.inl h2
            · refine Or.inr ⟨?_, ?_, ?_⟩
              · simp only [List.mem_singleton.1 h2]
                exact List.mem_cons_self c cs
              · rw [List.mem_singleton.1 h2]
                exact huf
              · rw [List.mem_singleton.1 h2]
                exact hlf
          · exact Or.inr ⟨List.mem_cons_of_mem c h1, h2, h3⟩
        · rw [if_neg (by simp [huf]), if_pos hlf] at he
          rcases ih _ e he with h1 | ⟨h1, h2, h3⟩
          · exact Or.inl h1
          · exact Or.inr ⟨List.mem_cons_of_mem c h1, h2, h3⟩
      · rw [if_pos huf] at he
        rcases ih _ e he with h1 | ⟨h1, h2, h3⟩
        · exact Or.inl h1
        · exact Or.inr ⟨List.mem_cons_of_mem c h1, h2, h3⟩

/-!
## Each scan cycle empties its own candidate set

After a cycle runs (success path), no row of the result satisfies that
cycle's candidate predicate: rows it rewrote are excluded by the SET clause
it applied, and rows it did not rewrite were not candidates. -/

theorem enqueuedCandidates_after (now : Nat) (s : Store) :
    enqueuedCandidates (process_enqueued_messages now s) = [] := by
  rw [List.eq_nil_iff_forall_not_mem]
  intro x hx
  unfold enqueuedCandidates at hx
  rw [process_enqueued_messages_messages] at hx
  rcases List.mem_map.1 hx with ⟨m2, hm2, rfl⟩
  rcases List.mem_filter.1 hm2 with ⟨hm2s, hst⟩
  rcases List.mem_map.1 hm2s with ⟨m, hms, rfl⟩
  by_cases h : m.id ∈ enqueuedCandidates s
  · rw [if_pos h] at hst
    have : (MessageStatus.Sent.as_str == MessageStatus.Enqueued.as_str) = true := hst
    exact absurd (by simpa using this) (by decide)
  · rw [if_neg h] at hst
    exact h (mem_cand_of_prop hms hst)

theorem aiEnqueuedCandidates_after (now : Nat) (s : Store) :
    aiEnqueuedCandidates (process_ai_enqueued_messages now s) = [] := by
  rw [List.eq_nil_iff_forall_not_mem]
  intro x hx
  unfold aiEnqueuedCandidates at hx
  rw [process_ai_enqueued_messages_messages] at hx
  rcases List.mem_map.1 hx with ⟨m2, hm2, rfl⟩
  rcases List.mem_filter.1 hm2 with ⟨hm2s, hst⟩
  rcases List.mem_map.1 hm2s with ⟨m, hms, rfl⟩
  by_cases h : m.id ∈ aiEnqueuedCandidates s
  · rw [if_pos h] at hst
    have : (MessageStatus.AiReplied.as_str == MessageStatus.AiEnqueued.as_str) = true := hst
    exact absurd (by simpa using this) (by decide)
  · rw [if_neg h] at hst
    exact h (mem_cand_of_prop hms hst)

theorem followUpCandidates_after (now : Nat) (s : Store) :
    followUpCandidates (now - hours24) (process_follow_up_messages now s) = [] := by
  rw [List.eq_nil_iff_forall_not_mem]
  intro x hx
  unfold followUpCandidates at hx
  rw [process_follow_up_messages_messages] at hx
  rcases List.mem_map.1 hx with ⟨m2, hm2, rfl⟩
  rcases List.mem_filter.1 hm2 with ⟨hm2s, hst⟩
  rcases List.mem_map.1 hm2s with ⟨m, hms, rfl⟩
  by_cases h : m.id ∈ followUpCandidates (now - hours24) s
  · rw [if_pos h] at hst
    simp [followUpEligible, followUpUpdate] at hst
  · rw [if_neg h] at hst
    exact h (mem_cand_of_prop hms hst)

theorem closedCandidates_after (now : Nat) (s : Store) :
    closedCandidates (now - hours24) (process_closed_messages now s) = [] := by
  rw [List.eq_nil_iff_forall_not_mem]
  intro x hx
  unfold closedCandidates at hx
  rw [process_closed_messages_messages] at hx
  rcases List.mem_map.1 hx with ⟨m2, hm2, rfl⟩
  rcases List.mem_filter.1 hm2 with ⟨hm2s, hst⟩
  rcases List.mem_map.1 hm2s with ⟨m, hms, rfl⟩
  by_cases h : m.id ∈ closedCandidates (now - hours24) s
  · rw [if_pos h] at hst
    simp [closedEligible, closedUpdate] at hst
  · rw [if_neg h] at hst
    exact h (mem_cand_of_prop hms hst)

theorem process_enqueued_eq_self {now : Nat} {s : Store}
    (h : enqueuedCandidates s = []) : process_enqueued_messages now s = s := by
  unfold process_enqueued_messages
  rw [h]
  rfl

theorem process_ai_enqueued_eq_self {now : Nat} {s : Store}
    (h : aiEnqueuedCandidates s = []) : process_ai_enqueued_messages now s = s := by
  unfold process_ai_enqueued_messages
  rw [h]
  rfl

theorem process_follow_up_eq_self {now : Nat} {s : Store}
    (h : followUpCandidates (now - hours24) s = []) :
    process_follow_up_messages now s = s := by
  unfold process_follow_up_messages
  rw [h]
  rfl

theorem process_closed_eq_self {now : Nat} {s : Store}
    (h : closedCandidates (now - hours24) s = []) : process_closed_messages now s = s := by
  unfold process_closed_messages
  rw [h]
  rfl

/-- C6: each of the four scan cycles is idempotent.  For every store state,
after one run (at time `now`) the cycle's own candidate set is empty, so a
second run at the same tick — no intervening event, no clock-dependent change
in eligibility — selects zero candidates, performs no transition, appends no
audit row, and leaves the store (messages and audit log alike) exactly as the
first run left it. -/
theorem C6_scan_idempotent (now : Nat) (s : Store) :
    enqueuedCandidates (process_enqueued_messages now s) = []
    ∧ process_enqueued_messages now (process_enqueued_messages now s)
        = process_enqueued_messages now s
    ∧ aiEnqueuedCandidates (process_ai_enqueued_messages now s) = []
    ∧ process_ai_enqueued_messages now (process_ai_enqueued_messages now s)
        = process_ai_enqueued_messages now s
    ∧ followUpCandidates (now - hours24) (process_follow_up_messages now s) = []
    ∧ process_follow_up_messages now (process_follow_up_messages now s)
        = process_follow_up_messages now s
    ∧ closedCandidates (now - hours24) (process_closed_messages now s) = []
    ∧ process_closed_messages now (process_closed_messages now s)
        = process_closed_messages now s :=
  ⟨enqueuedCandidates_after now s,
   process_enqueued_eq_self (enqueuedCandidates_after now s),
   aiEnqueuedCandidates_after now s,
   process_ai_enqueued_eq_self (aiEnqueuedCandidates_after now s),
   followUpCandidates_after now s,
   process_follow_up_eq_self (followUpCandidates_after now s),
   closedCandidates_after now s,
   process_closed_eq_self (closedCandidates_after now s)⟩

/-- C9: every scan cycle treats a failing candidate SELECT exactly like a
SELECT that found zero candidates (`fetch_all(..).unwrap_or_default()`): the
cycle performs no transition, appends no audit row, and returns normally with
the store untouched.  (The cycles return `()` in the source, so no error can
propagate; totality of the model reflects that.) -/
theorem C9_query_failure_noop (e : String) (now : Nat) (s : Store) :
    process_enqueued_messages_q (.error e) now s
        = process_enqueued_messages_q (.ok []) now s
    ∧ process_enqueued_messages_q (.error e) now s = s
    ∧ process_ai_enqueued_messages_q (.error e) now s
        = process_ai_enqueued_messages_q (.ok []) now s
    ∧ process_ai_enqueued_messages_q (.error e) now s = s
    ∧ process_follow_up_messages_q (.error e) now s
        = process_follow_up_messages_q (.ok []) now s
    ∧ process_follow_up_messages_q (.error e) now s = s
    ∧ process_closed_messages_q (.error e) now s
        = process_closed_messages_q (.ok []) now s
    ∧ process_closed_messages_q (.error e) now s = s :=
  ⟨rfl, rfl, rfl, rfl, rfl, rfl, rfl, rfl⟩

/-!
## Concrete executions

Two concrete runs of the system, used as witnesses and counterexamples.
`exS1 … exS6`: a lead and message that are sent, escalate to follow-up, are
closed, and then receive a (late) reply.  `exT3, exT4`: the same send
followed by the AI-reply path. -/

def exS1 : Store := applyOp (.createLead "Jane" (some "jane@example.com") none) 0 emptyStore

def exS2 : Store := applyOp (.createMessage 1 "Hi") 0 exS1

def exS3 : Store := applyOp .scanEnqueued 0 exS2

def exS4 : Store := applyOp .scanFollowUp 100000 exS3

def exS5 : Store := applyOp .scanClosed 200000 exS4

def exS6 : Store := applyOp (.recordReply 1 "Thanks") 300000 exS5

def exT3 : Store := applyOp (.requestAiReply 1) 0 exS3

def exT4 : Store := applyOp .scanAiEnqueued 0 exT3

/-- The single message row of `exS2`. -/
def exMsgEnqueued : Message :=
  { id := 1, leads_id := 1, message_sent := some "Hi", sent_at := none,
    reply_received := none, reply_received_at := none, ai_reply := none,
    ai_reply_sent := none, created_at := 0, status := "enqueued",
    follow_up_at := none, closed_at := none }

/-- The single message row of `exS3`. -/
def exMsgSent : Message :=
  { id := 1, leads_id := 1, message_sent := some "Hi", sent_at := some 0,
    reply_received := none, reply_received_at := none, ai_reply := none,
    ai_reply_sent := none, created_at := 0, status := "sent",
    follow_up_at := none, closed_at := none }

/-- The single message row of `exS6`: a reply recorded after closure. -/
def exMsgReplied : Message :=
  { id := 1, leads_id := 1, message_sent := some "Hi", sent_at := some 0,
    reply_received := some "Thanks", reply_received_at := some 300000, ai_reply := none,
    ai_reply_sent := none, created_at := 0, status := "replied",
    follow_up_at := some 100000, closed_at := some 200000 }

/-- The single message row of `exT4`: the AI path completed, no human reply. -/
def exMsgAiReplied : Message :=
  { id := 1, leads_id := 1, message_sent := some "Hi", sent_at := some 0,
    reply_received := none, reply_received_at := none, ai_reply := some ai_response,
    ai_reply_sent := some 0, created_at := 0, status := "ai_replied",
    follow_up_at := none, closed_at := none }

theorem exS2_reachable : Reachable exS2 0 :=
  .step (.createMessage 1 "Hi")
    (.step (.createLead "Jane" (some "jane@example.com") none) .init (Nat.le_refl 0))
    (Nat.le_refl 0)

theorem exS3_reachable : Reachable exS3 0 :=
  .step .scanEnqueued exS2_reachable (Nat.le_refl 0)

theorem exS4_reachable : Reachable exS4 100000 :=
  .step .scanFollowUp exS3_reachable (Nat.zero_le 100000)

theorem exS5_reachable : Reachable exS5 200000 :=
  .step .scanClosed exS4_reachable (by decide)

theorem exS6_reachable : Reachable exS6 300000 :=
  .step (.recordReply 1 "Thanks") exS5_reachable (by decide)

theorem exT4_reachable : Reachable exT4 0 :=
  .step .scanAiEnqueued (.step (.requestAiReply 1) exS3_reachable (Nat.le_refl 0))
    (Nat.le_refl 0)

/-- C1 counterexample: the Message update and its audit-log append are not
one failure-atomic unit.  On a store with one enqueued message, running the
send cycle with every UPDATE succeeding and every audit INSERT failing (the
code's `log_outreach` only reports the error) leaves the message transitioned
to `sent` with `sent_at` set while the audit log is exactly as before — the
Message update took effect and the audit append did not. -/
theorem C1_counterexample :
    (process_enqueued_messages_fi 5 (fun _ => false) (fun _ => true) exS2).messages.map
        (fun m => (m.status, m.sent_at)) = [(MessageStatus.Sent.as_str, some 5)]
    ∧ (process_enqueued_messages_fi 5 (fun _ => false) (fun _ => true) exS2).outreach_log
        = exS2.outreach_log :=
  ⟨by decide, by decide⟩

/-- C2 counterexample: the system does undo a status.  In the reachable state
`exS5` the only message is `closed`; applying RecordReply to it yields
`exS6`, where its status is `replied` — an earlier state of the lifecycle
order than `closed`, moving it out of the terminal state `Closed` backwards.
-/
theorem C2_counterexample :
    Reachable exS5 200000
    ∧ exS5.messages.map (fun m => m.status) = [MessageStatus.Closed.as_str]
    ∧ exS6 = applyOp (.recordReply 1 "Thanks") 300000 exS5
    ∧ exS6.messages.map (fun m => m.status) = [MessageStatus.Replied.as_str]
    ∧ specStatusRank MessageStatus.Replied.as_str
        < specStatusRank MessageStatus.Closed.as_str :=
  ⟨exS5_reachable, by decide, rfl, by decide, by decide⟩

/-- C3 counterexample: the status/timestamp invariant is not preserved by
every operation.  The reachable state `exS6` (RecordReply applied to a closed
message) has a message with `closed_at` non-null while its status is
`replied`, and `follow_up_at` non-null while its status precedes `FollowUp`.
-/
theorem C3_counterexample :
    Reachable exS6 300000 ∧ ¬ statusTimestampInv exS6 :=
  ⟨exS6_reachable, fun h =>
    absurd ((h exMsgReplied (by decide)).1 (by decide)) (by decide)⟩

/-- C4 counterexample: a message transitioned to FollowUp by the follow-up
cycle need not have been in status `Sent` at selection.  In the reachable
state `exT4` the only message has status `ai_replied` (the AI path ran), yet
the follow-up cycle selects it (the SELECT never consults `status`) and
transitions it to `follow_up`. -/
theorem C4_counterexample :
    Reachable exT4 0
    ∧ exT4.messages.map (fun m => m.status) = [MessageStatus.AiReplied.as_str]
    ∧ followUpCandidates (100000 - hours24) exT4 = [1]
    ∧ (process_follow_up_messages 100000 exT4).messages.map (fun m => m.status)
        = [MessageStatus.FollowUp.as_str]
    ∧ MessageStatus.AiReplied.as_str ≠ MessageStatus.Sent.as_str :=
  ⟨exT4_reachable, by decide, by decide, by decide, by decide⟩

/-- C1 amended: the `Message` update and its audit append are ordered, not
atomic.  At every transition site (the four scanner cycles and the two
event-driven handlers) the audit-log append is attempted only after — and
only if — the `Message` update succeeded, so an audit row is never added
without its `Message` update, and an update that fails changes nothing on the
API path; but the converse direction of atomicity does not hold (see the
counterexample): a successful update whose audit append fails remains in
effect, un-audited. -/
theorem C1_update_first (now : Nat) (uf lf : Nat → Bool) (mid : Nat) (reply : String)
    (ufb lfb : Bool) (s : Store) :
    (∀ e ∈ (process_enqueued_messages_fi now uf lf s).outreach_log,
        e ∈ s.outreach_log
          ∨ (e.message_id ∈ enqueuedCandidates s ∧ uf e.message_id = false
              ∧ lf e.message_id = false))
    ∧ (∀ e ∈ (process_ai_enqueued_messages_fi now uf lf s).outreach_log,
        e ∈ s.outreach_log
          ∨ (e.message_id ∈ aiEnqueuedCandidates s ∧ uf e.message_id = false
              ∧ lf e.message_id = false))
    ∧ (∀ e ∈ (process_follow_up_messages_fi now uf lf s).outreach_log,
        e ∈ s.outreach_log
          ∨ (e.message_id ∈ followUpCandidates (now - hours24) s ∧ uf e.message_id = false
              ∧ lf e.message_id = false))
    ∧ (∀ e ∈ (process_closed_messages_fi now uf lf s).outreach_log,
        e ∈ s.outreach_log
          ∨ (e.message_id ∈ closedCandidates (now - hours24) s ∧ uf e.message_id = false
              ∧ lf e.message_id = false))
    ∧ (reply_to_message_fi now mid reply true lfb s).1 = s
    ∧ (ai_reply_fi now mid true lfb s).1 = s
    ∧ (∀ e ∈ (reply_to_message_fi now mid reply ufb lfb s).1.outreach_log,
        e ∈ s.outreach_log ∨ (ufb = false ∧ lfb = false ∧ e.message_id = mid))
    ∧ (∀ e ∈ (ai_reply_fi now mid ufb lfb s).1.outreach_log,
        e ∈ s.outreach_log ∨ (ufb = false ∧ lfb = false ∧ e.message_id = mid)) := by
  refine ⟨?_, ?_, ?_, ?_, ?_, ?_, ?_, ?_⟩
  · exact fun e he =>
      fi_foldl_log_mem (sentUpdate now) MessageStatus.Sent now uf lf
        (enqueuedCandidates s) s e he
  · exact fun e he =>
      fi_foldl_log_mem (aiRepliedUpdate now) MessageStatus.AiReplied now uf lf
        (aiEnqueuedCandidates s) s e he
  · exact fun e he =>
      fi_foldl_log_mem (followUpUpdate now) MessageStatus.FollowUp now uf lf
        (followUpCandidates (now - hours24) s) s e he
  · exact fun e he =>
      fi_foldl_log_mem (closedUpdate now) MessageStatus.Closed now uf lf
        (closedCandidates (now - hours24) s) s e he
  · rcases h : s.messages.find? (fun m => m.id == mid) with _ | m
    · simp [reply_to_message_fi, h]
    · simp [reply_to_message_fi, h]
  · rcases h : s.messages.find? (fun m => m.id == mid) with _ | m
    · simp [ai_reply_fi, h]
    · simp [ai_reply_fi, h]
  · intro e he
    rcases h : s.messages.find? (fun m => m.id == mid) with _ | m
    · rw [reply_to_message_fi, h] at he
      exact Or.inl he
    · rw [reply_to_message_fi, h] at he
      rcases hu : ufb with _ | _
      · rcases hl : lfb with _ | _
        · rw [hu, hl] at he
          simp only [Bool.false_eq_true, if_false] at he
          rcases List.mem_append.1 he with h1 | h1
          · exact Or.inl h1
          · refine Or.inr ⟨rfl, rfl, ?_⟩
            rw [List.mem_singleton.1 h1]
        · rw [hu, hl] at he
          simp only [Bool.false_eq_true, if_false, if_true] at he
          exact Or.inl he
      · rw [hu] at he
        simp only [if_true] at he
        exact Or.inl he
  · intro e he
    rcases h : s.messages.find? (fun m => m.id == mid) with _ | m
    · rw [ai_reply_fi, h] at he
      exact Or.inl he
    · rw [ai_reply_fi, h] at he
      rcases hu : ufb with _ | _
      · rcases hl : lfb with _ | _
        · rw [hu, hl] at he
          simp only [Bool.false_eq_true, if_false] at he
          rcases List.mem_append.1 he with h1 | h1
          · exact Or.inl h1
          · refine Or.inr ⟨rfl, rfl, ?_⟩
            rw [List.mem_singleton.1 h1]
        · rw [hu, hl] at he
          simp only [Bool.false_eq_true, if_false, if_true] at he
          exact Or.inl he
      · rw [hu] at he
        simp only [if_true] at he
        exact Or.inl he

/-!
## The inductive invariant of reachable stores

`MessageInv t m` collects the facts about one row that every trigger
preserves when the wall clock is at `t`; `StoreInv` adds uniqueness of the
primary key and the autoincrement bound.  These are the induction load for
the reachable-state theorems. -/

/-- The seven status strings the code ever writes. -/
def statusStrings : List String :=
  [MessageStatus.Enqueued.as_str, MessageStatus.Sent.as_str, MessageStatus.Replied.as_str,
   MessageStatus.AiEnqueued.as_str, MessageStatus.AiReplied.as_str,
   MessageStatus.FollowUp.as_str, MessageStatus.Closed.as_str]

/-- Row-level inductive invariant at wall-clock time `t`. -/
def MessageInv (t : Nat) (m : Message) : Prop :=
  m.created_at ≤ t
  ∧ (∀ x, m.sent_at = some x → m.created_at ≤ x ∧ x ≤ t)
  ∧ (∀ x, m.follow_up_at = some x → x ≤ t ∧ ∀ y, m.sent_at = some y → y ≤ x)
  ∧ (∀ x, m.closed_at = some x → x ≤ t ∧ ∀ y, m.follow_up_at = some y → y ≤ x)
  ∧ (m.status = MessageStatus.Enqueued.as_str →
      m.sent_at = none ∧ m.follow_up_at = none ∧ m.closed_at = none)
  ∧ (m.status = MessageStatus.Closed.as_str → m.closed_at ≠ none)
  ∧ m.status ∈ statusStrings

/-- Store-level inductive invariant at wall-clock time `t`. -/
def StoreInv (s : Store) (t : Nat) : Prop :=
  (s.messages.map (fun m => m.id)).Nodup
  ∧ (∀ m ∈ s.messages, m.id < s.next_message_id)
  ∧ (∀ m ∈ s.messages, MessageInv t m)

theorem messageInv_mono {t t2 : Nat} (h : t ≤ t2) {m : Message} (hm : MessageInv t m) :
    MessageInv t2 m := by
  obtain ⟨h1, h2, h3, h4, h5, h6, h7⟩ := hm
  refine ⟨h1.trans h, ?_, ?_, ?_, h5, h6, h7⟩
  · intro x hx
    exact ⟨(h2 x hx).1, (h2 x hx).2.trans h⟩
  · intro x hx
    exact ⟨(h3 x hx).1.trans h, (h3 x hx).2⟩
  · intro x hx
    exact ⟨(h4 x hx).1.trans h, (h4 x hx).2⟩

theorem storeInv_mono {s : Store} {t t2 : Nat} (h : t ≤ t2) (hs : StoreInv s t) :
    StoreInv s t2 :=
  ⟨hs.1, hs.2.1, fun m hm => messageInv_mono h (hs.2.2 m hm)⟩

theorem messageInv_repliedUpdate (t now : Nat) (r : String) {m : Message}
    (h : MessageInv t m) : MessageInv t (repliedUpdate now r m) := by
  obtain ⟨h1, h2, h3, h4, h5, h6, h7⟩ := h
  refine ⟨h1, h2, h3, h4, ?_, ?_, ?_⟩
  · intro hx
    exact absurd
      (show MessageStatus.Replied.as_str = MessageStatus.Enqueued.as_str from hx) (by decide)
  · intro hx
    exact absurd
      (show MessageStatus.Replied.as_str = MessageStatus.Closed.as_str from hx) (by decide)
  · show MessageStatus.Replied.as_str ∈ statusStrings
    decide

theorem messageInv_aiEnqueuedUpdate (t : Nat) {m : Message} (h : MessageInv t m) :
    MessageInv t (aiEnqueuedUpdate m) := by
  obtain ⟨h1, h2, h3, h4, h5, h6, h7⟩ := h
  refine ⟨h1, h2, h3, h4, ?_, ?_, ?_⟩
  · intro hx
    exact absurd
      (show MessageStatus.AiEnqueued.as_str = MessageStatus.Enqueued.as_str from hx) (by decide)
  · intro hx
    exact absurd
      (show MessageStatus.AiEnqueued.as_str = MessageStatus.Closed.as_str from hx) (by decide)
  · show MessageStatus.AiEnqueued.as_str ∈ statusStrings
    decide

theorem messageInv_aiRepliedUpdate (t now : Nat) {m : Message} (h : MessageInv t m) :
    MessageInv t (aiRepliedUpdate now m) := by
  obtain ⟨h1, h2, h3, h4, h5, h6, h7⟩ := h
  refine ⟨h1, h2, h3, h4, ?_, ?_, ?_⟩
  · intro hx
    exact absurd
      (show MessageStatus.AiReplied.as_str = MessageStatus.Enqueued.as_str from hx) (by decide)
  · intro hx
    exact absurd
      (show MessageStatus.AiReplied.as_str = MessageStatus.Closed.as_str from hx) (by decide)
  · show MessageStatus.AiReplied.as_str ∈ statusStrings
    decide

theorem messageInv_sentUpdate (t : Nat) {m : Message} (h : MessageInv t m)
    (hst : m.status = MessageStatus.Enqueued.as_str) : MessageInv t (sentUpdate t m) := by
  obtain ⟨h1, h2, h3, h4, h5, h6, h7⟩ := h
  obtain ⟨hs, hf, hc⟩ := h5 hst
  refine ⟨h1, ?_, ?_, ?_, ?_, ?_, ?_⟩
  case refine_4 =>
    intro hx
    exact absurd
      (show MessageStatus.Sent.as_str = MessageStatus.Enqueued.as_str from hx) (by decide)
  case refine_5 =>
    intro hx
    exact absurd
      (show MessageStatus.Sent.as_str = MessageStatus.Closed.as_str from hx) (by decide)
  case refine_6 =>
    show MessageStatus.Sent.as_str ∈ statusStrings
    decide
  · intro x hx
    rw [show (sentUpdate t m).sent_at = some t from rfl] at hx
    cases hx
    exact ⟨h1, Nat.le_refl t⟩
  · intro x hx
    rw [show (sentUpdate t m).follow_up_at = m.follow_up_at from rfl, hf] at hx
    exact Option.noConfusion hx
  · intro x hx
    rw [show (sentUpdate t m).closed_at = m.closed_at from rfl, hc] at hx
    exact Option.noConfusion hx

/-- Unpacking of the follow-up SELECT's WHERE clause. -/
theorem followUpEligible_iff (cutoff : Nat) (m : Message) :
    followUpEligible cutoff m = true
      ↔ (∃ y, m.sent_at = some y ∧ y < cutoff)
        ∧ m.reply_received = none ∧ m.reply_received_at = none
        ∧ m.follow_up_at = none ∧ m.closed_at = none := by
  unfold followUpEligible
  rcases hsent : m.sent_at with _ | y
  · simp [hsent]
  · simp only [Bool.and_eq_true, decide_eq_true_eq, Option.isNone_iff_eq_none]
    constructor
    · rintro ⟨⟨⟨⟨hy, hr⟩, hra⟩, hfu⟩, hcl⟩
      exact ⟨⟨y, rfl, hy⟩, hr, hra, hfu, hcl⟩
    · rintro ⟨⟨y0, hy0, hlt⟩, hr, hra, hfu, hcl⟩
      cases hy0
      exact ⟨⟨⟨⟨hlt, hr⟩, hra⟩, hfu⟩, hcl⟩

/-- Unpacking of the close SELECT's WHERE clause. -/
theorem closedEligible_iff (cutoff : Nat) (m : Message) :
    closedEligible cutoff m = true
      ↔ (∃ y, m.follow_up_at = some y ∧ y < cutoff)
        ∧ m.reply_received = none ∧ m.reply_received_at = none ∧ m.closed_at = none := by
  unfold closedEligible
  rcases hfu : m.follow_up_at with _ | y
  · simp [hfu]
  · simp only [Bool.and_eq_true, decide_eq_true_eq, Option.isNone_iff_eq_none]
    constructor
    · rintro ⟨⟨⟨hy, hr⟩, hra⟩, hcl⟩
      exact ⟨⟨y, rfl, hy⟩, hr, hra, hcl⟩
    · rintro ⟨⟨y0, hy0, hlt⟩, hr, hra, hcl⟩
      cases hy0
      exact ⟨⟨⟨hlt, hr⟩, hra⟩, hcl⟩

theorem messageInv_followUpUpdate (t : Nat) {m : Message} (h : MessageInv t m)
    (he : followUpEligible (t - hours24) m = true) : MessageInv t (followUpUpdate t m) := by
  obtain ⟨⟨y, hy, hlt⟩, hr, hra, hfu, hcl⟩ := (followUpEligible_iff (t - hours24) m).1 he
  obtain ⟨h1, h2, h3, h4, h5, h6, h7⟩ := h
  refine ⟨h1, h2, ?_, ?_, ?_, ?_, ?_⟩
  case refine_3 =>
    intro hx
    exact absurd
      (show MessageStatus.FollowUp.as_str = MessageStatus.Enqueued.as_str from hx) (by decide)
  case refine_4 =>
    intro hx
    exact absurd
      (show MessageStatus.FollowUp.as_str = MessageStatus.Closed.as_str from hx) (by decide)
  case refine_5 =>
    show MessageStatus.FollowUp.as_str ∈ statusStrings
    decide
  · intro x hx
    rw [show (followUpUpdate t m).follow_up_at = some t from rfl] at hx
    cases hx
    refine ⟨Nat.le_refl t, ?_⟩
    intro y0 hy0
    rw [show (followUpUpdate t m).sent_at = m.sent_at from rfl, hy] at hy0
    cases hy0
    exact Nat.le_of_lt (Nat.lt_of_lt_of_le hlt (Nat.sub_le t hours24))
  · intro x hx
    rw [show (followUpUpdate t m).closed_at = m.closed_at from rfl, hcl] at hx
    exact Option.noConfusion hx

theorem messageInv_closedUpdate (t : Nat) {m : Message} (h : MessageInv t m)
    (he : closedEligible (t - hours24) m = true) : MessageInv t (closedUpdate t m) := by
  obtain ⟨⟨y, hy, hlt⟩, hr, hra, hcl⟩ := (closedEligible_iff (t - hours24) m).1 he
  obtain ⟨h1, h2, h3, h4, h5, h6, h7⟩ := h
  refine ⟨h1, h2, h3, ?_, ?_, fun _ hx => Option.noConfusion hx, ?_⟩
  case refine_2 =>
    intro hx
    exact absurd
      (show MessageStatus.Closed.as_str = MessageStatus.Enqueued.as_str from hx) (by decide)
  case refine_3 =>
    show MessageStatus.Closed.as_str ∈ statusStrings
    decide
  · intro x hx
    rw [show (closedUpdate t m).closed_at = some t from rfl] at hx
    cases hx
    refine ⟨Nat.le_refl t, ?_⟩
    intro y0 hy0
    rw [show (closedUpdate t m).follow_up_at = m.follow_up_at from rfl, hy] at hy0
    cases hy0
    exact Nat.le_of_lt (Nat.lt_of_lt_of_le hlt (Nat.sub_le t hours24))

theorem process_enqueued_messages_next (now : Nat) (s : Store) :
    (process_enqueued_messages now s).next_message_id = s.next_message_id :=
  (scan_foldl_frame (sentUpdate now) MessageStatus.Sent now (enqueuedCandidates s) s).2.2

theorem process_ai_enqueued_messages_next (now : Nat) (s : Store) :
    (process_ai_enqueued_messages now s).next_message_id = s.next_message_id :=
  (scan_foldl_frame (aiRepliedUpdate now) MessageStatus.AiReplied now
    (aiEnqueuedCandidates s) s).2.2

theorem process_follow_up_messages_next (now : Nat) (s : Store) :
    (process_follow_up_messages now s).next_message_id = s.next_message_id :=
  (scan_foldl_frame (followUpUpdate now) MessageStatus.FollowUp now
    (followUpCandidates (now - hours24) s) s).2.2

theorem process_closed_messages_next (now : Nat) (s : Store) :
    (process_closed_messages now s).next_message_id = s.next_message_id :=
  (scan_foldl_frame (closedUpdate now) MessageStatus.Closed now
    (closedCandidates (now - hours24) s) s).2.2

/-- `StoreInv` transfers along a row-wise rewrite of the `messages` relation
by an id-preserving, invariant-preserving function. -/
theorem storeInv_of_map {s s2 : Store} {t : Nat} (h : StoreInv s t) (g : Message → Message)
    (hmsg : s2.messages = s.messages.map g)
    (hnext : s2.next_message_id = s.next_message_id)
    (hgid : ∀ m, (g m).id = m.id)
    (hg : ∀ m ∈ s.messages, MessageInv t m → MessageInv t (g m)) :
    StoreInv s2 t := by
  obtain ⟨hn, hb, hi⟩ := h
  refine ⟨?_, ?_, ?_⟩
  · rw [hmsg, List.map_map]
    have hfe : ((fun m => m.id) ∘ g) = fun m : Message => m.id := funext fun m => hgid m
    rw [hfe]
    exact hn
  · intro m hm
    rw [hmsg] at hm
    rcases List.mem_map.1 hm with ⟨m0, hm0, rfl⟩
    rw [hnext, hgid]
    exact hb m0 hm0
  · intro m hm
    rw [hmsg] at hm
    rcases List.mem_map.1 hm with ⟨m0, hm0, rfl⟩
    exact hg m0 hm0 (hi m0 hm0)

theorem storeInv_createLead (n : String) (e p : Option String) {s : Store} {t : Nat}
    (h : StoreInv s t) : StoreInv (applyOp (.createLead n e p) t s) t := by
  show StoreInv
    (match create_lead n e p s with
     | .ok (st, _) => st
     | .error _ => s) t
  unfold create_lead
  by_cases h1 : trimIsEmpty n = true
  · rw [if_pos h1]
    exact h
  · rw [if_neg h1]
    by_cases h2 : (e.isNone && p.isNone) = true
    · rw [if_pos h2]
      exact h
    · rw [if_neg h2]
      exact ⟨h.1, h.2.1, h.2.2⟩

theorem storeInv_createMessage (lid : Nat) (text : String) {s : Store} {t : Nat}
    (h : StoreInv s t) : StoreInv (applyOp (.createMessage lid text) t s) t := by
  show StoreInv
    (match send_message t lid text s with
     | .ok (st, _) => st
     | .error _ => s) t
  unfold send_message
  obtain ⟨hn, hb, hi⟩ := h
  by_cases h1 : (s.leads.filter (fun l => l.id == lid)).length = 0
  · rw [if_pos h1]
    exact ⟨hn, hb, hi⟩
  · rw [if_neg h1]
    refine ⟨?_, ?_, ?_⟩
    · show ((s.messages
          ++ [({ id := s.next_message_id, leads_id := lid, message_sent := some text,
                 sent_at := none, reply_received := none, reply_received_at := none,
                 ai_reply := none, ai_reply_sent := none, created_at := t,
                 status := MessageStatus.Enqueued.as_str, follow_up_at := none,
                 closed_at := none } : Message)]).map (fun m => m.id)).Nodup
      rw [List.map_append, List.nodup_append]
      refine ⟨hn, List.nodup_singleton _, ?_⟩
      intro a ha ha2
      rcases List.mem_map.1 ha with ⟨m0, hm0, rfl⟩
      simp only [List.map_cons, List.map_nil, List.mem_singleton] at ha2
      exact absurd (ha2 ▸ hb m0 hm0) (Nat.lt_irrefl _)
    · intro m hm
      show m.id < s.next_message_id + 1
      rcases List.mem_append.1 hm with hm1 | hm1
      · exact Nat.lt_succ_of_lt (hb m hm1)
      · rw [List.mem_singleton] at hm1
        rw [hm1]
        exact Nat.lt_succ_self _
    · intro m hm
      rcases List.mem_append.1 hm with hm1 | hm1
      · exact hi m hm1
      · rw [List.mem_singleton] at hm1
        rw [hm1]
        refine ⟨Nat.le_refl t, ?_, ?_, ?_, fun _ => ⟨rfl, rfl, rfl⟩, ?_, ?_⟩
        · intro x hx
          exact Option.noConfusion hx
        · intro x hx
          exact Option.noConfusion hx
        · intro x hx
          exact Option.noConfusion hx
        · intro hx
          exact absurd
            (show MessageStatus.Enqueued.as_str = MessageStatus.Closed.as_str from hx)
            (by decide)
        · show MessageStatus.Enqueued.as_str ∈ statusStrings
          decide

theorem storeInv_recordReply (mid : Nat) (r : String) {s : Store} {t : Nat}
    (h : StoreInv s t) : StoreInv (applyOp (.recordReply mid r) t s) t := by
  show StoreInv
    (match reply_to_message t mid r s with
     | .ok (st, _) => st
     | .error _ => s) t
  unfold reply_to_message
  rcases hf : s.messages.find? (fun m => m.id == mid) with _ | m
  · rw [hf]
    exact h
  · rw [hf]
    refine storeInv_of_map h (fun m2 => if m2.id = mid then repliedUpdate t r m2 else m2)
      rfl rfl ?_ ?_
    · intro m2
      show (if m2.id = mid then repliedUpdate t r m2 else m2).id = m2.id
      by_cases hid : m2.id = mid
      · rw [if_pos hid]
        rfl
      · rw [if_neg hid]
    · intro m2 hm2 hinv
      show MessageInv t (if m2.id = mid then repliedUpdate t r m2 else m2)
      by_cases hid : m2.id = mid
      · rw [if_pos hid]
        exact messageInv_repliedUpdate t t r hinv
      · rw [if_neg hid]
        exact hinv

theorem storeInv_requestAiReply (mid : Nat) {s : Store} {t : Nat}
    (h : StoreInv s t) : StoreInv (applyOp (.requestAiReply mid) t s) t := by
  show StoreInv
    (match ai_reply t mid s with
     | .ok (st, _) => st
     | .error _ => s) t
  unfold ai_reply
  rcases hf : s.messages.find? (fun m => m.id == mid) with _ | m
  · rw [hf]
    exact h
  · rw [hf]
    refine storeInv_of_map h (fun m2 => if m2.id = mid then aiEnqueuedUpdate m2 else m2)
      rfl rfl ?_ ?_
    · intro m2
      show (if m2.id = mid then aiEnqueuedUpdate m2 else m2).id = m2.id
      by_cases hid : m2.id = mid
      · rw [if_pos hid]
        rfl
      · rw [if_neg hid]
    · intro m2 hm2 hinv
      show MessageInv t (if m2.id = mid then aiEnqueuedUpdate m2 else m2)
      by_cases hid : m2.id = mid
      · rw [if_pos hid]
        exact messageInv_aiEnqueuedUpdate t hinv
      · rw [if_neg hid]
        exact hinv

theorem storeInv_scanEnqueued {s : Store} {t : Nat} (h : StoreInv s t) :
    StoreInv (applyOp .scanEnqueued t s) t := by
  show StoreInv (process_enqueued_messages t s) t
  refine storeInv_of_map h
    (fun m => if m.id ∈ enqueuedCandidates s then sentUpdate t m else m)
    (process_enqueued_messages_messages t s)
    (process_enqueued_messages_next t s) ?_ ?_
  · intro m
    show (if m.id ∈ enqueuedCandidates s then sentUpdate t m else m).id = m.id
    by_cases hid : m.id ∈ enqueuedCandidates s
    · rw [if_pos hid]
      rfl
    · rw [if_neg hid]
  · intro m hm hinv
    show MessageInv t (if m.id ∈ enqueuedCandidates s then sentUpdate t m else m)
    by_cases hid : m.id ∈ enqueuedCandidates s
    · rw [if_pos hid]
      exact messageInv_sentUpdate t hinv (eq_of_beq (prop_of_mem_cand h.1 hm hid))
    · rw [if_neg hid]
      exact hinv

theorem storeInv_scanAiEnqueued {s : Store} {t : Nat} (h : StoreInv s t) :
    StoreInv (applyOp .scanAiEnqueued t s) t := by
  show StoreInv (process_ai_enqueued_messages t s) t
  refine storeInv_of_map h
    (fun m => if m.id ∈ aiEnqueuedCandidates s then aiRepliedUpdate t m else m)
    (process_ai_enqueued_messages_messages t s)
    (process_ai_enqueued_messages_next t s) ?_ ?_
  · intro m
    show (if m.id ∈ aiEnqueuedCandidates s then aiRepliedUpdate t m else m).id = m.id
    by_cases hid : m.id ∈ aiEnqueuedCandidates s
    · rw [if_pos hid]
      rfl
    · rw [if_neg hid]
  · intro m hm hinv
    show MessageInv t (if m.id ∈ aiEnqueuedCandidates s then aiRepliedUpdate t m else m)
    by_cases hid : m.id ∈ aiEnqueuedCandidates s
    · rw [if_pos hid]
      exact messageInv_aiRepliedUpdate t t hinv
    · rw [if_neg hid]
      exact hinv

theorem storeInv_scanFollowUp {s : Store} {t : Nat} (h : StoreInv s t) :
    StoreInv (applyOp .scanFollowUp t s) t := by
  show StoreInv (process_follow_up_messages t s) t
  refine storeInv_of_map h
    (fun m => if m.id ∈ followUpCandidates (t - hours24) s then followUpUpdate t m else m)
    (process_follow_up_messages_messages t s)
    (process_follow_up_messages_next t s) ?_ ?_
  · intro m
    show (if m.id ∈ followUpCandidates (t - hours24) s then followUpUpdate t m else m).id = m.id
    by_cases hid : m.id ∈ followUpCandidates (t - hours24) s
    · rw [if_pos hid]
      rfl
    · rw [if_neg hid]
  · intro m hm hinv
    show MessageInv t (if m.id ∈ followUpCandidates (t - hours24) s then followUpUpdate t m else m)
    by_cases hid : m.id ∈ followUpCandidates (t - hours24) s
    · rw [if_pos hid]
      exact messageInv_followUpUpdate t hinv (prop_of_mem_cand h.1 hm hid)
    · rw [if_neg hid]
      exact hinv

theorem storeInv_scanClosed {s : Store} {t : Nat} (h : StoreInv s t) :
    StoreInv (applyOp .scanClosed t s) t := by
  show StoreInv (process_closed_messages t s) t
  refine storeInv_of_map h
    (fun m => if m.id ∈ closedCandidates (t - hours24) s then closedUpdate t m else m)
    (process_closed_messages_messages t s)
    (process_closed_messages_next t s) ?_ ?_
  · intro m
    show (if m.id ∈ closedCandidates (t - hours24) s then closedUpdate t m else m).id = m.id
    by_cases hid : m.id ∈ closedCandidates (t - hours24) s
    · rw [if_pos hid]
      rfl
    · rw [if_neg hid]
  · intro m hm hinv
    show MessageInv t (if m.id ∈ closedCandidates (t - hours24) s then closedUpdate t m else m)
    by_cases hid : m.id ∈ closedCandidates (t - hours24) s
    · rw [if_pos hid]
      exact messageInv_closedUpdate t hinv (prop_of_mem_cand h.1 hm hid)
    · rw [if_neg hid]
      exact hinv

/-- Every trigger preserves the inductive invariant. -/
theorem storeInv_step (op : Op) {s : Store} {t : Nat} (h : StoreInv s t) :
    StoreInv (applyOp op t s) t := by
  cases op with
  | createLead n e p => exact storeInv_createLead n e p h
  | createMessage lid text => exact storeInv_createMessage lid text h
  | recordReply mid r => exact storeInv_recordReply mid r h
  | requestAiReply mid => exact storeInv_requestAiReply mid h
  | scanEnqueued => exact storeInv_scanEnqueued h
  | scanAiEnqueued => exact storeInv_scanAiEnqueued h
  | scanFollowUp => exact storeInv_scanFollowUp h
  | scanClosed => exact storeInv_scanClosed h

/-- The inductive invariant holds in every reachable state. -/
theorem reachable_inv {s : Store} {t : Nat} (h : Reachable s t) : StoreInv s t := by
  induction h with
  | init =>
      exact ⟨List.nodup_nil, fun m hm => absurd hm (List.not_mem_nil m),
        fun m hm => absurd hm (List.not_mem_nil m)⟩
  | step op hr hle ih =>
      exact storeInv_step op (storeInv_mono hle ih)

/-- Between a state and its successor, `created_at` is never rewritten and
each of `sent_at`, `follow_up_at`, `closed_at` is only ever written into a
null field — i.e. each of the four timestamps is written at most once over a
row's lifetime. -/
def timestampsWriteOnce (s s2 : Store) : Prop :=
  ∀ m2 ∈ s2.messages, ∀ m ∈ s.messages, m.id = m2.id →
    m2.created_at = m.created_at
    ∧ (m.sent_at = none ∨ m2.sent_at = m.sent_at)
    ∧ (m.follow_up_at = none ∨ m2.follow_up_at = m.follow_up_at)
    ∧ (m.closed_at = none ∨ m2.closed_at = m.closed_at)

theorem writeOnce_of_same {s s2 : Store} (hn : (s.messages.map (fun m => m.id)).Nodup)
    (hmsg : s2.messages = s.messages) : timestampsWriteOnce s s2 := by
  intro m2 hm2 m hm hid
  rw [hmsg] at hm2
  have heq : m = m2 := List.inj_on_of_nodup_map hn hm hm2 hid
  rw [heq]
  exact ⟨rfl, Or.inr rfl, Or.inr rfl, Or.inr rfl⟩

theorem writeOnce_of_map {s s2 : Store} (hn : (s.messages.map (fun m => m.id)).Nodup)
    (g : Message → Message) (hmsg : s2.messages = s.messages.map g)
    (hgid : ∀ m, (g m).id = m.id)
    (hg : ∀ m ∈ s.messages,
        (g m).created_at = m.created_at
        ∧ (m.sent_at = none ∨ (g m).sent_at = m.sent_at)
        ∧ (m.follow_up_at = none ∨ (g m).follow_up_at = m.follow_up_at)
        ∧ (m.closed_at = none ∨ (g m).closed_at = m.closed_at)) :
    timestampsWriteOnce s s2 := by
  intro m2 hm2 m hm hid
  rw [hmsg] at hm2
  rcases List.mem_map.1 hm2 with ⟨m0, hm0, rfl⟩
  have heq : m = m0 := List.inj_on_of_nodup_map hn hm hm0 (by rw [hid, hgid])
  rw [heq]
  exact hg m0 hm0

theorem applyOp_createLead_messages (n : String) (e p : Option String) (t2 : Nat) (s : Store) :
    (applyOp (.createLead n e p) t2 s).messages = s.messages := by
  show (match create_lead n e p s with
        | .ok (st, _) => st
        | .error _ => s).messages = s.messages
  unfold create_lead
  by_cases h1 : trimIsEmpty n = true
  · rw [if_pos h1]
  · rw [if_neg h1]
    by_cases h2 : (e.isNone && p.isNone) = true
    · rw [if_pos h2]
    · rw [if_neg h2]

/-- Every trigger writes each of the four lifecycle timestamps at most once:
`created_at` is never rewritten, the other three only go from null to
non-null. -/
theorem writeOnce_step (op : Op) {s : Store} {t : Nat} (h : StoreInv s t) (t2 : Nat) :
    timestampsWriteOnce s (applyOp op t2 s) := by
  cases op with
  | createLead n e p =>
      exact writeOnce_of_same h.1 (applyOp_createLead_messages n e p t2 s)
  | createMessage lid text =>
      show timestampsWriteOnce s
        (match send_message t2 lid text s with
         | .ok (st, _) => st
         | .error _ => s)
      unfold send_message
      by_cases h1 : (s.leads.filter (fun l => l.id == lid)).length = 0
      · rw [if_pos h1]
        exact writeOnce_of_same h.1 rfl
      · rw [if_neg h1]
        intro m2 hm2 m hm hid
        rcases List.mem_append.1 hm2 with hm2a | hm2a
        · have heq : m = m2 := List.inj_on_of_nodup_map h.1 hm hm2a hid
          rw [heq]
          exact ⟨rfl, Or.inr rfl, Or.inr rfl, Or.inr rfl⟩
        · rw [List.mem_singleton] at hm2a
          rw [hm2a] at hid
          exact absurd (hid ▸ h.2.1 m hm) (Nat.lt_irrefl _)
  | recordReply mid r =>
      show timestampsWriteOnce s
        (match reply_to_message t2 mid r s with
         | .ok (st, _) => st
         | .error _ => s)
      unfold reply_to_message
      rcases hf : s.messages.find? (fun m => m.id == mid) with _ | m0
      · rw [hf]
        exact writeOnce_of_same h.1 rfl
      · rw [hf]
        refine writeOnce_of_map h.1
          (fun m2 => if m2.id = mid then repliedUpdate t2 r m2 else m2) rfl ?_ ?_
        · intro m
          show (if m.id = mid then repliedUpdate t2 r m else m).id = m.id
          by_cases hid : m.id = mid
          · rw [if_pos hid]
            rfl
          · rw [if_neg hid]
        · intro m hm
          show (if m.id = mid then repliedUpdate t2 r m else m).created_at = m.created_at
            ∧ (m.sent_at = none
                ∨ (if m.id = mid then repliedUpdate t2 r m else m).sent_at = m.sent_at)
            ∧ (m.follow_up_at = none
                ∨ (if m.id = mid then repliedUpdate t2 r m else m).follow_up_at = m.follow_up_at)
            ∧ (m.closed_at = none
                ∨ (if m.id = mid then repliedUpdate t2 r m else m).closed_at = m.closed_at)
          by_cases hid : m.id = mid
          · rw [if_pos hid]
            exact ⟨rfl, Or.inr rfl, Or.inr rfl, Or.inr rfl⟩
          · rw [if_neg hid]
            exact ⟨rfl, Or.inr rfl, Or.inr rfl, Or.inr rfl⟩
  | requestAiReply mid =>
      show timestampsWriteOnce s
        (match ai_reply t2 mid s with
         | .ok (st, _) => st
         | .error _ => s)
      unfold ai_reply
      rcases hf : s.messages.find? (fun m => m.id == mid) with _ | m0
      · rw [hf]
        exact writeOnce_of_same h.1 rfl
      · rw [hf]
        refine writeOnce_of_map h.1
          (fun m2 => if m2.id = mid then aiEnqueuedUpdate m2 else m2) rfl ?_ ?_
        · intro m
          show (if m.id = mid then aiEnqueuedUpdate m else m).id = m.id
          by_cases hid : m.id = mid
          · rw [if_pos hid]
            rfl
          · rw [if_neg hid]
        · intro m hm
          show (if m.id = mid then aiEnqueuedUpdate m else m).created_at = m.created_at
            ∧ (m.sent_at = none
                ∨ (if m.id = mid then aiEnqueuedUpdate m else m).sent_at = m.sent_at)
            ∧ (m.follow_up_at = none
                ∨ (if m.id = mid then aiEnqueuedUpdate m else m).follow_up_at = m.follow_up_at)
            ∧ (m.closed_at = none
                ∨ (if m.id = mid then aiEnqueuedUpdate m else m).closed_at = m.closed_at)
          by_cases hid : m.id = mid
          · rw [if_pos hid]
            exact ⟨rfl, Or.inr rfl, Or.inr rfl, Or.inr rfl⟩
          · rw [if_neg hid]
            exact ⟨rfl, Or.inr rfl, Or.inr rfl, Or.inr rfl⟩
  | scanEnqueued =>
      refine writeOnce_of_map h.1
        (fun m => if m.id ∈ enqueuedCandidates s then sentUpdate t2 m else m)
        (process_enqueued_messages_messages t2 s) ?_ ?_
      · intro m
        show (if m.id ∈ enqueuedCandidates s then sentUpdate t2 m else m).id = m.id
        by_cases hc : m.id ∈ enqueuedCandidates s
        · rw [if_pos hc]
          rfl
        · rw [if_neg hc]
      · intro m hm
        show (if m.id ∈ enqueuedCandidates s then sentUpdate t2 m else m).created_at
              = m.created_at
          ∧ (m.sent_at = none
              ∨ (if m.id ∈ enqueuedCandidates s then sentUpdate t2 m else m).sent_at = m.sent_at)
          ∧ (m.follow_up_at = none
              ∨ (if m.id ∈ enqueuedCandidates s then sentUpdate t2 m else m).follow_up_at
                  = m.follow_up_at)
          ∧ (m.closed_at = none
              ∨ (if m.id ∈ enqueuedCandidates s then sentUpdate t2 m else m).closed_at
                  = m.closed_at)
        by_cases hc : m.id ∈ enqueuedCandidates s
        · rw [if_pos hc]
          have hc2 : m.id ∈ (s.messages.filter
              (fun m => m.status == MessageStatus.Enqueued.as_str)).map (fun m => m.id) := hc
          have hp := prop_of_mem_cand h.1 hm hc2
          have hst : m.status = MessageStatus.Enqueued.as_str := eq_of_beq hp
          have h5 := (h.2.2 m hm).2.2.2.2.1 hst
          exact ⟨rfl, Or.inl h5.1, Or.inr rfl, Or.inr rfl⟩
        · rw [if_neg hc]
          exact ⟨rfl, Or.inr rfl, Or.inr rfl, Or.inr rfl⟩
  | scanAiEnqueued =>
      refine writeOnce_of_map h.1
        (fun m => if m.id ∈ aiEnqueuedCandidates s then aiRepliedUpdate t2 m else m)
        (process_ai_enqueued_messages_messages t2 s) ?_ ?_
      · intro m
        show (if m.id ∈ aiEnqueuedCandidates s then aiRepliedUpdate t2 m else m).id = m.id
        by_cases hc : m.id ∈ aiEnqueuedCandidates s
        · rw [if_pos hc]
          rfl
        · rw [if_neg hc]
      · intro m hm
        show (if m.id ∈ aiEnqueuedCandidates s then aiRepliedUpdate t2 m else m).created_at
              = m.created_at
          ∧ (m.sent_at = none
              ∨ (if m.id ∈ aiEnqueuedCandidates s then aiRepliedUpdate t2 m else m).sent_at
                  = m.sent_at)
          ∧ (m.follow_up_at = none
              ∨ (if m.id ∈ aiEnqueuedCandidates s then aiRepliedUpdate t2 m else m).follow_up_at
                  = m.follow_up_at)
          ∧ (m.closed_at = none
              ∨ (if m.id ∈ aiEnqueuedCandidates s then aiRepliedUpdate t2 m else m).closed_at
                  = m.closed_at)
        by_cases hc : m.id ∈ aiEnqueuedCandidates s
        · rw [if_pos hc]
          exact ⟨rfl, Or.inr rfl, Or.inr rfl, Or.inr rfl⟩
        · rw [if_neg hc]
          exact ⟨rfl, Or.inr rfl, Or.inr rfl, Or.inr rfl⟩
  | scanFollowUp =>
      refine writeOnce_of_map h.1
        (fun m => if m.id ∈ followUpCandidates (t2 - hours24) s then followUpUpdate t2 m else m)
        (process_follow_up_messages_messages t2 s) ?_ ?_
      · intro m
        show (if m.id ∈ followUpCandidates (t2 - hours24) s then followUpUpdate t2 m else m).id
            = m.id
        by_cases hc : m.id ∈ followUpCandidates (t2 - hours24) s
        · rw [if_pos hc]
          rfl
        · rw [if_neg hc]
      · intro m hm
        show (if m.id ∈ followUpCandidates (t2 - hours24) s
              then followUpUpdate t2 m else m).created_at = m.created_at
          ∧ (m.sent_at = none
              ∨ (if m.id ∈ followUpCandidates (t2 - hours24) s
                 then followUpUpdate t2 m else m).sent_at = m.sent_at)
          ∧ (m.follow_up_at = none
              ∨ (if m.id ∈ followUpCandidates (t2 - hours24) s
                 then followUpUpdate t2 m else m).follow_up_at = m.follow_up_at)
          ∧ (m.closed_at = none
              ∨ (if m.id ∈ followUpCandidates (t2 - hours24) s
                 then followUpUpdate t2 m else m).closed_at = m.closed_at)
        by_cases hc : m.id ∈ followUpCandidates (t2 - hours24) s
        · rw [if_pos hc]
          have he := (followUpEligible_iff (t2 - hours24) m).1 (prop_of_mem_cand h.1 hm hc)
          exact ⟨rfl, Or.inr rfl, Or.inl he.2.2.2.1, Or.inr rfl⟩
        · rw [if_neg hc]
          exact ⟨rfl, Or.inr rfl, Or.inr rfl, Or.inr rfl⟩
  | scanClosed =>
      refine writeOnce_of_map h.1
        (fun m => if m.id ∈ closedCandidates (t2 - hours24) s then closedUpdate t2 m else m)
        (process_closed_messages_messages t2 s) ?_ ?_
      · intro m
        show (if m.id ∈ closedCandidates (t2 - hours24) s then closedUpdate t2 m else m).id
            = m.id
        by_cases hc : m.id ∈ closedCandidates (t2 - hours24) s
        · rw [if_pos hc]
          rfl
        · rw [if_neg hc]
      · intro m hm
        show (if m.id ∈ closedCandidates (t2 - hours24) s
              then closedUpdate t2 m else m).created_at = m.created_at
          ∧ (m.sent_at = none
              ∨ (if m.id ∈ closedCandidates (t2 - hours24) s
                 then closedUpdate t2 m else m).sent_at = m.sent_at)
          ∧ (m.follow_up_at = none
              ∨ (if m.id ∈ closedCandidates (t2 - hours24) s
                 then closedUpdate t2 m else m).follow_up_at = m.follow_up_at)
          ∧ (m.closed_at = none
              ∨ (if m.id ∈ closedCandidates (t2 - hours24) s
                 then closedUpdate t2 m else m).closed_at = m.closed_at)
        by_cases hc : m.id ∈ closedCandidates (t2 - hours24) s
        · rw [if_pos hc]
          have he := (closedEligible_iff (t2 - hours24) m).1 (prop_of_mem_cand h.1 hm hc)
          exact ⟨rfl, Or.inr rfl, Or.inr rfl, Or.inl he.2.2.2⟩
        · rw [if_neg hc]
          exact ⟨rfl, Or.inr rfl, Or.inr rfl, Or.inr rfl⟩

/-- C8: timestamp monotonicity.  In every reachable state, every message in
which `sent_at`, `follow_up_at` and `closed_at` are all non-null satisfies
`created_at ≤ sent_at ≤ follow_up_at ≤ closed_at`; moreover every operation
of the core, applied at the current or any later time, writes each of these
four timestamps at most once (it never rewrites `created_at` and only ever
fills the other three into null fields), and hence preserves the ordering. -/
theorem C8_timestamp_monotone {s : Store} {t : Nat} (h : Reachable s t) :
    (∀ m ∈ s.messages, ∀ x y z, m.sent_at = some x → m.follow_up_at = some y →
        m.closed_at = some z → m.created_at ≤ x ∧ x ≤ y ∧ y ≤ z)
    ∧ (∀ op t2, timestampsWriteOnce s (applyOp op t2 s)) := by
  have hinv := reachable_inv h
  constructor
  · intro m hm x y z hx hy hz
    obtain ⟨h1, h2, h3, h4, h5, h6, h7⟩ := hinv.2.2 m hm
    exact ⟨(h2 x hx).1, (h3 y hy).2 x hx, (h4 z hz).2 y hy⟩
  · intro op t2
    exact writeOnce_step op hinv t2

/-- C8 witness: the monotonicity chain evaluated on the concrete reachable
state `exS6`, whose message has all four timestamps non-null. -/
theorem C8_timestamp_monotone_witness :
    exMsgReplied.created_at ≤ 0 ∧ 0 ≤ 100000 ∧ 100000 ≤ 200000 :=
  (C8_timestamp_monotone exS6_reachable).1 exMsgReplied (by decide) 0 100000 200000
    rfl rfl rfl

theorem specStatusRank_le_four {st : String} (hmem : st ∈ statusStrings)
    (hne : st ≠ MessageStatus.Closed.as_str) : specStatusRank st ≤ 4 := by
  simp only [statusStrings, List.mem_cons, List.not_mem_nil, or_false] at hmem
  rcases hmem with h | h | h | h | h | h | h
  · rw [h]
    decide
  · rw [h]
    decide
  · rw [h]
    decide
  · rw [h]
    decide
  · rw [h]
    decide
  · rw [h]
    decide
  · exact absurd h hne

theorem specStatusRank_le_five {st : String} (hmem : st ∈ statusStrings) :
    specStatusRank st ≤ 5 := by
  simp only [statusStrings, List.mem_cons, List.not_mem_nil, or_false] at hmem
  rcases hmem with h | h | h | h | h | h | h
  all_goals rw [h]
  all_goals decide

/-- C2 amended: the four scanner cycles never decrease the lifecycle rank.
In every reachable state, a scan cycle leaves the status of every row where
it is or moves it forward in the lifecycle order (the cycle that writes a row
either found it at `Enqueued` and wrote `Sent`, found it at `AiEnqueued` and
wrote `AiReplied`, or wrote `FollowUp` / `Closed`, which only the null-field
predicates guard — and a row with `closed_at` null is never at `Closed`).
The event-driven operations RecordReply and RequestAiReply, by contrast, set
the status unconditionally and can move it backwards, e.g. out of the
terminal state `Closed` (see the counterexample). -/
theorem C2_scanner_forward {s : Store} {t : Nat} (h : Reachable s t) (now : Nat) :
    ∀ op ∈ ([Op.scanEnqueued, Op.scanAiEnqueued, Op.scanFollowUp, Op.scanClosed] : List Op),
      ∀ m2 ∈ (applyOp op now s).messages, ∀ m ∈ s.messages, m.id = m2.id →
        specStatusRank m.status ≤ specStatusRank m2.status := by
  intro op hop
  have hinv := reachable_inv h
  have hnodup := hinv.1
  simp only [List.mem_cons, List.not_mem_nil, or_false] at hop
  rcases hop with rfl | rfl | rfl | rfl
  · intro m2 hm2 m hm hid
    rw [show applyOp Op.scanEnqueued now s = process_enqueued_messages now s from rfl,
        process_enqueued_messages_messages] at hm2
    rcases List.mem_map.1 hm2 with ⟨m0, hm0, rfl⟩
    have hgid : (if m0.id ∈ enqueuedCandidates s then sentUpdate now m0 else m0).id = m0.id := by
      by_cases hc : m0.id ∈ enqueuedCandidates s
      · rw [if_pos hc]
        rfl
      · rw [if_neg hc]
    have heq : m = m0 := List.inj_on_of_nodup_map hnodup hm hm0 (by rw [hid]; exact hgid)
    rw [heq]
    show specStatusRank m0.status
        ≤ specStatusRank (if m0.id ∈ enqueuedCandidates s then sentUpdate now m0 else m0).status
    by_cases hc : m0.id ∈ enqueuedCandidates s
    · have hc2 : m0.id ∈ (s.messages.filter
          (fun m => m.status == MessageStatus.Enqueued.as_str)).map (fun m => m.id) := hc
      have hst : m0.status = MessageStatus.Enqueued.as_str :=
        eq_of_beq (prop_of_mem_cand hnodup hm0 hc2)
      rw [if_pos hc, hst]
      show specStatusRank MessageStatus.Enqueued.as_str
          ≤ specStatusRank MessageStatus.Sent.as_str
      decide
    · rw [if_neg hc]
  · intro m2 hm2 m hm hid
    rw [show applyOp Op.scanAiEnqueued now s = process_ai_enqueued_messages now s from rfl,
        process_ai_enqueued_messages_messages] at hm2
    rcases List.mem_map.1 hm2 with ⟨m0, hm0, rfl⟩
    have hgid :
        (if m0.id ∈ aiEnqueuedCandidates s then aiRepliedUpdate now m0 else m0).id = m0.id := by
      by_cases hc : m0.id ∈ aiEnqueuedCandidates s
      · rw [if_pos hc]
        rfl
      · rw [if_neg hc]
    have heq : m = m0 := List.inj_on_of_nodup_map hnodup hm hm0 (by rw [hid]; exact hgid)
    rw [heq]
    show specStatusRank m0.status
        ≤ specStatusRank
            (if m0.id ∈ aiEnqueuedCandidates s then aiRepliedUpdate now m0 else m0).status
    by_cases hc : m0.id ∈ aiEnqueuedCandidates s
    · have hc2 : m0.id ∈ (s.messages.filter
          (fun m => m.status == MessageStatus.AiEnqueued.as_str)).map (fun m => m.id) := hc
      have hst : m0.status = MessageStatus.AiEnqueued.as_str :=
        eq_of_beq (prop_of_mem_cand hnodup hm0 hc2)
      rw [if_pos hc, hst]
      show specStatusRank MessageStatus.AiEnqueued.as_str
          ≤ specStatusRank MessageStatus.AiReplied.as_str
      decide
    · rw [if_neg hc]
  · intro m2 hm2 m hm hid
    rw [show applyOp Op.scanFollowUp now s = process_follow_up_messages now s from rfl,
        process_follow_up_messages_messages] at hm2
    rcases List.mem_map.1 hm2 with ⟨m0, hm0, rfl⟩
    have hgid :
        (if m0.id ∈ followUpCandidates (now - hours24) s
         then followUpUpdate now m0 else m0).id = m0.id := by
      by_cases hc : m0.id ∈ followUpCandidates (now - hours24) s
      · rw [if_pos hc]
        rfl
      · rw [if_neg hc]
    have heq : m = m0 := List.inj_on_of_nodup_map hnodup hm hm0 (by rw [hid]; exact hgid)
    rw [heq]
    show specStatusRank m0.status
        ≤ specStatusRank
            (if m0.id ∈ followUpCandidates (now - hours24) s
             then followUpUpdate now m0 else m0).status
    by_cases hc : m0.id ∈ followUpCandidates (now - hours24) s
    · have hc2 : m0.id ∈ (s.messages.filter
          (followUpEligible (now - hours24))).map (fun m => m.id) := hc
      have he := (followUpEligible_iff (now - hours24) m0).1
        (prop_of_mem_cand hnodup hm0 hc2)
      have h6 := (hinv.2.2 m0 hm0).2.2.2.2.2.1
      have h7 := (hinv.2.2 m0 hm0).2.2.2.2.2.2
      have hne : m0.status ≠ MessageStatus.Closed.as_str :=
        fun hcl => absurd he.2.2.2.2 (h6 hcl)
      rw [if_pos hc]
      have hr4 : specStatusRank (followUpUpdate now m0).status = 4 := by
        show specStatusRank MessageStatus.FollowUp.as_str = 4
        decide
      rw [hr4]
      exact specStatusRank_le_four h7 hne
    · rw [if_neg hc]
  · intro m2 hm2 m hm hid
    rw [show applyOp Op.scanClosed now s = process_closed_messages now s from rfl,
        process_closed_messages_messages] at hm2
    rcases List.mem_map.1 hm2 with ⟨m0, hm0, rfl⟩
    have hgid :
        (if m0.id ∈ closedCandidates (now - hours24) s
         then closedUpdate now m0 else m0).id = m0.id := by
      by_cases hc : m0.id ∈ closedCandidates (now - hours24) s
      · rw [if_pos hc]
        rfl
      · rw [if_neg hc]
    have heq : m = m0 := List.inj_on_of_nodup_map hnodup hm hm0 (by rw [hid]; exact hgid)
    rw [heq]
    show specStatusRank m0.status
        ≤ specStatusRank
            (if m0.id ∈ closedCandidates (now - hours24) s
             then closedUpdate now m0 else m0).status
    by_cases hc : m0.id ∈ closedCandidates (now - hours24) s
    · have h7 := (hinv.2.2 m0 hm0).2.2.2.2.2.2
      rw [if_pos hc]
      have hr5 : specStatusRank (closedUpdate now m0).status = 5 := by
        show specStatusRank MessageStatus.Closed.as_str = 5
        decide
      rw [hr5]
      exact specStatusRank_le_five h7
    · rw [if_neg hc]

/-- The single message row of `exS4`. -/
def exMsgFollowUp : Message :=
  { id := 1, leads_id := 1, message_sent := some "Hi", sent_at := some 0,
    reply_received := none, reply_received_at := none, ai_reply := none,
    ai_reply_sent := none, created_at := 0, status := "follow_up",
    follow_up_at := some 100000, closed_at := none }

/-- C2 amended, witnessed on the concrete reachable state `exS3`: the
follow-up cycle moves the rank of the only message from 1 (`sent`) to 4
(`follow_up`). -/
theorem C2_scanner_forward_witness :
    specStatusRank exMsgSent.status ≤ specStatusRank exMsgFollowUp.status :=
  C2_scanner_forward exS3_reachable 100000 Op.scanFollowUp (by decide) exMsgFollowUp
    (by decide) exMsgSent (by decide) rfl

/-- A row at a status that is not `Closed` and precedes `FollowUp` has both
escalation timestamps null, in any store satisfying the status/timestamp
invariant. -/
theorem stInv_nulls {s : Store} (hinv : statusTimestampInv s) {m : Message}
    (hm : m ∈ s.messages) (hne : m.status ≠ MessageStatus.Closed.as_str)
    (hrk : specStatusRank m.status < 4) :
    m.closed_at = none ∧ m.follow_up_at = none := by
  obtain ⟨h1, h2⟩ := hinv m hm
  constructor
  · by_contra hx
    exact hne (h1 hx)
  · by_contra hx
    exact absurd (h2 hx) (by omega)

/-- C3 amended: the status/timestamp invariant — `closed_at` non-null only at
status `Closed`, `follow_up_at` non-null only at a status not preceding
`FollowUp` — is preserved by the four scanner cycles and by CreateMessage (on
stores with unique message ids), but not by every operation of the core:
RecordReply and RequestAiReply demote the status while leaving the
timestamps in place (see the counterexample). -/
theorem C3_inv_preserved {s : Store} (hn : (s.messages.map (fun m => m.id)).Nodup)
    (hinv : statusTimestampInv s) (now lid : Nat) (text : String) :
    statusTimestampInv (process_enqueued_messages now s)
    ∧ statusTimestampInv (process_ai_enqueued_messages now s)
    ∧ statusTimestampInv (process_follow_up_messages now s)
    ∧ statusTimestampInv (process_closed_messages now s)
    ∧ statusTimestampInv (applyOp (.createMessage lid text) now s) := by
  refine ⟨?_, ?_, ?_, ?_, ?_⟩
  · intro m2 hm2
    rw [process_enqueued_messages_messages] at hm2
    rcases List.mem_map.1 hm2 with ⟨m0, hm0, rfl⟩
    show ((if m0.id ∈ enqueuedCandidates s then sentUpdate now m0 else m0).closed_at ≠ none
          → (if m0.id ∈ enqueuedCandidates s then sentUpdate now m0 else m0).status
              = MessageStatus.Closed.as_str)
      ∧ ((if m0.id ∈ enqueuedCandidates s then sentUpdate now m0 else m0).follow_up_at ≠ none
          → 4 ≤ specStatusRank
                (if m0.id ∈ enqueuedCandidates s then sentUpdate now m0 else m0).status)
    by_cases hc : m0.id ∈ enqueuedCandidates s
    · have hc2 : m0.id ∈ (s.messages.filter
          (fun m => m.status == MessageStatus.Enqueued.as_str)).map (fun m => m.id) := hc
      have hst : m0.status = MessageStatus.Enqueued.as_str :=
        eq_of_beq (prop_of_mem_cand hn hm0 hc2)
      have hnulls := stInv_nulls hinv hm0 (by rw [hst]; decide) (by rw [hst]; decide)
      rw [if_pos hc]
      constructor
      · intro hx
        exact absurd hnulls.1 hx
      · intro hx
        exact absurd hnulls.2 hx
    · rw [if_neg hc]
      exact hinv m0 hm0
  · intro m2 hm2
    rw [process_ai_enqueued_messages_messages] at hm2
    rcases List.mem_map.1 hm2 with ⟨m0, hm0, rfl⟩
    show ((if m0.id ∈ aiEnqueuedCandidates s then aiRepliedUpdate now m0 else m0).closed_at
            ≠ none
          → (if m0.id ∈ aiEnqueuedCandidates s then aiRepliedUpdate now m0 else m0).status
              = MessageStatus.Closed.as_str)
      ∧ ((if m0.id ∈ aiEnqueuedCandidates s then aiRepliedUpdate now m0 else m0).follow_up_at
            ≠ none
          → 4 ≤ specStatusRank
                (if m0.id ∈ aiEnqueuedCandidates s then aiRepliedUpdate now m0 else m0).status)
    by_cases hc : m0.id ∈ aiEnqueuedCandidates s
    · have hc2 : m0.id ∈ (s.messages.filter
          (fun m => m.status == MessageStatus.AiEnqueued.as_str)).map (fun m => m.id) := hc
      have hst : m0.status = MessageStatus.AiEnqueued.as_str :=
        eq_of_beq (prop_of_mem_cand hn hm0 hc2)
      have hnulls := stInv_nulls hinv hm0 (by rw [hst]; decide) (by rw [hst]; decide)
      rw [if_pos hc]
      constructor
      · intro hx
        exact absurd hnulls.1 hx
      · intro hx
        exact absurd hnulls.2 hx
    · rw [if_neg hc]
      exact hinv m0 hm0
  · intro m2 hm2
    rw [process_follow_up_messages_messages] at hm2
    rcases List.mem_map.1 hm2 with ⟨m0, hm0, rfl⟩
    show ((if m0.id ∈ followUpCandidates (now - hours24) s
           then followUpUpdate now m0 else m0).closed_at ≠ none
          → (if m0.id ∈ followUpCandidates (now - hours24) s
             then followUpUpdate now m0 else m0).status = MessageStatus.Closed.as_str)
      ∧ ((if m0.id ∈ followUpCandidates (now - hours24) s
          then followUpUpdate now m0 else m0).follow_up_at ≠ none
          → 4 ≤ specStatusRank
                (if m0.id ∈ followUpCandidates (now - hours24) s
                 then followUpUpdate now m0 else m0).status)
    by_cases hc : m0.id ∈ followUpCandidates (now - hours24) s
    · have hc2 : m0.id ∈ (s.messages.filter
          (followUpEligible (now - hours24))).map (fun m => m.id) := hc
      have he := (followUpEligible_iff (now - hours24) m0).1 (prop_of_mem_cand hn hm0 hc2)
      rw [if_pos hc]
      constructor
      · intro hx
        exact absurd he.2.2.2.2 hx
      · intro _
        show 4 ≤ specStatusRank MessageStatus.FollowUp.as_str
        decide
    · rw [if_neg hc]
      exact hinv m0 hm0
  · intro m2 hm2
    rw [process_closed_messages_messages] at hm2
    rcases List.mem_map.1 hm2 with ⟨m0, hm0, rfl⟩
    show ((if m0.id ∈ closedCandidates (now - hours24) s
           then closedUpdate now m0 else m0).closed_at ≠ none
          → (if m0.id ∈ closedCandidates (now - hours24) s
             then closedUpdate now m0 else m0).status = MessageStatus.Closed.as_str)
      ∧ ((if m0.id ∈ closedCandidates (now - hours24) s
          then closedUpdate now m0 else m0).follow_up_at ≠ none
          → 4 ≤ specStatusRank
                (if m0.id ∈ closedCandidates (now - hours24) s
                 then closedUpdate now m0 else m0).status)
    by_cases hc : m0.id ∈ closedCandidates (now - hours24) s
    · rw [if_pos hc]
      constructor
      · intro _
        rfl
      · intro _
        show 4 ≤ specStatusRank MessageStatus.Closed.as_str
        decide
    · rw [if_neg hc]
      exact hinv m0 hm0
  · show statusTimestampInv
      (match send_message now lid text s with
       | .ok (st, _) => st
       | .error _ => s)
    unfold send_message
    by_cases h1 : (s.leads.filter (fun l => l.id == lid)).length = 0
    · rw [if_pos h1]
      exact hinv
    · rw [if_neg h1]
      intro m2 hm2
      rcases List.mem_append.1 hm2 with hm2a | hm2a
      · exact hinv m2 hm2a
      · rw [List.mem_singleton] at hm2a
        rw [hm2a]
        constructor
        · intro hx
          exact absurd rfl hx
        · intro hx
          exact absurd rfl hx

/-- C3 amended, witnessed on the concrete store `exS2`. -/
theorem C3_inv_preserved_witness :
    statusTimestampInv (process_enqueued_messages 5 exS2)
    ∧ statusTimestampInv (process_ai_enqueued_messages 5 exS2)
    ∧ statusTimestampInv (process_follow_up_messages 5 exS2)
    ∧ statusTimestampInv (process_closed_messages 5 exS2)
    ∧ statusTimestampInv (applyOp (.createMessage 1 "Yo") 5 exS2) :=
  C3_inv_preserved (by decide) (by unfold statusTimestampInv; decide) 5 1 "Yo"

/-- C4 amended: the follow-up cycle selects and transitions a message if and
only if the null-field/timestamp predicate of its SELECT holds — `sent_at`
non-null and older than `now − 24h`, and `reply_received`,
`reply_received_at`, `follow_up_at`, `closed_at` all null — regardless of the
message's `status` column, which the cycle never consults (the From state
need not be `Sent`; see the counterexample). -/
theorem C4_selection_iff {s : Store} (hn : (s.messages.map (fun m => m.id)).Nodup)
    (now : Nat) :
    (∀ m, followUpEligible (now - hours24) m = true
        ↔ (∃ y, m.sent_at = some y ∧ y < now - hours24)
          ∧ m.reply_received = none ∧ m.reply_received_at = none
          ∧ m.follow_up_at = none ∧ m.closed_at = none)
    ∧ (process_follow_up_messages now s).messages
        = s.messages.map
            (fun m =>
              if followUpEligible (now - hours24) m then followUpUpdate now m else m) := by
  refine ⟨fun m => followUpEligible_iff (now - hours24) m, ?_⟩
  rw [process_follow_up_messages_messages]
  apply List.map_congr_left
  intro m hm
  by_cases he : followUpEligible (now - hours24) m = true
  · have hcand : m.id ∈ followUpCandidates (now - hours24) s := mem_cand_of_prop hm he
    rw [if_pos hcand, if_pos he]
  · have hnc : m.id ∉ followUpCandidates (now - hours24) s := by
      intro hc
      have hc2 : m.id ∈ (s.messages.filter
          (followUpEligible (now - hours24))).map (fun m => m.id) := hc
      exact he (prop_of_mem_cand hn hm hc2)
    rw [if_neg hnc, if_neg he]

/-- C4 amended, witnessed on the concrete reachable store `exT4` (whose only
message is eligible while at status `ai_replied`). -/
theorem C4_selection_iff_witness :
    (process_follow_up_messages 100000 exT4).messages
      = exT4.messages.map
          (fun m =>
            if followUpEligible (100000 - hours24) m then followUpUpdate 100000 m else m) :=
  (C4_selection_iff (by decide) 100000).2

/-- C5: a recorded reply blocks both time-based escalations.  Whatever the
value of its `status` column, a message whose `reply_received` field is
non-null is never selected by the follow-up scan or the close scan (both
SELECTs require `reply_received IS NULL`) and is left exactly as it is by
both cycles. -/
theorem C5_reply_blocks_escalation {s : Store}
    (hn : (s.messages.map (fun m => m.id)).Nodup) (now : Nat) {m : Message}
    (hm : m ∈ s.messages) (hr : m.reply_received ≠ none) :
    m.id ∉ followUpCandidates (now - hours24) s
    ∧ m.id ∉ closedCandidates (now - hours24) s
    ∧ m ∈ (process_follow_up_messages now s).messages
    ∧ m ∈ (process_closed_messages now s).messages := by
  have hf : m.id ∉ followUpCandidates (now - hours24) s := by
    intro hc
    have hc2 : m.id ∈ (s.messages.filter
        (followUpEligible (now - hours24))).map (fun m => m.id) := hc
    exact hr ((followUpEligible_iff (now - hours24) m).1 (prop_of_mem_cand hn hm hc2)).2.1
  have hcl : m.id ∉ closedCandidates (now - hours24) s := by
    intro hc
    have hc2 : m.id ∈ (s.messages.filter
        (closedEligible (now - hours24))).map (fun m => m.id) := hc
    exact hr ((closedEligible_iff (now - hours24) m).1 (prop_of_mem_cand hn hm hc2)).2.1
  refine ⟨hf, hcl, ?_, ?_⟩
  · rw [process_follow_up_messages_messages]
    exact List.mem_map.2 ⟨m, hm, if_neg hf⟩
  · rw [process_closed_messages_messages]
    exact List.mem_map.2 ⟨m, hm, if_neg hcl⟩

/-- C5 witnessed on `exS6`, whose message has a recorded reply (and, there,
also a non-null `follow_up_at` would otherwise make it a close candidate on
the timestamp alone). -/
theorem C5_reply_blocks_escalation_witness :
    exMsgReplied.id ∉ followUpCandidates (400000 - hours24) exS6
    ∧ exMsgReplied.id ∉ closedCandidates (400000 - hours24) exS6
    ∧ exMsgReplied ∈ (process_follow_up_messages 400000 exS6).messages
    ∧ exMsgReplied ∈ (process_closed_messages 400000 exS6).messages :=
  C5_reply_blocks_escalation (by decide) 400000 (by decide) (by decide)

/-- C7: RecordReply fails with NotFound exactly when the id matches no
message, and on any existing message — regardless of its current status — it
succeeds, returning the row with `reply_received` set to the given text,
`reply_received_at` set to now, `status` set to `replied`, and writing
exactly that rewrite to the store. -/
theorem C7_record_reply (now mid : Nat) (reply : String) (s : Store) :
    (reply_to_message now mid reply s = .error .NotFound ↔ ∀ m ∈ s.messages, m.id ≠ mid)
    ∧ ((∃ m ∈ s.messages, m.id = mid) →
        ∃ st m2, reply_to_message now mid reply s = .ok (st, m2)
          ∧ m2.reply_received = some reply ∧ m2.reply_received_at = some now
          ∧ m2.status = MessageStatus.Replied.as_str
          ∧ st.messages = s.messages.map
              (fun m => if m.id = mid then repliedUpdate now reply m else m)) := by
  constructor
  · constructor
    · intro herr m hm hmid
      rcases hf : s.messages.find? (fun m => m.id == mid) with _ | m0
      · exact List.find?_eq_none.1 hf m hm (by simp [hmid])
      · unfold reply_to_message at herr
        rw [hf] at herr
        exact absurd herr (by simp)
    · intro hall
      have hf : s.messages.find? (fun m => m.id == mid) = none := by
        apply List.find?_eq_none.2
        intro m hm
        simp only [beq_iff_eq]
        exact hall m hm
      unfold reply_to_message
      rw [hf]
  · rintro ⟨m, hm, rfl⟩
    rcases hf : s.messages.find? (fun m2 => m2.id == m.id) with _ | m0
    · exact absurd (by simp) (List.find?_eq_none.1 hf m hm)
    · refine ⟨log_outreach now m.id MessageStatus.Replied
          (updateMessage m.id (repliedUpdate now reply) s), repliedUpdate now reply m0,
          ?_, rfl, rfl, rfl, rfl⟩
      unfold reply_to_message
      rw [hf]

/-- C7 witnessed on the concrete store `exS2`. -/
theorem C7_record_reply_witness :
    ∃ st m2, reply_to_message 7 1 "Yo" exS2 = .ok (st, m2)
      ∧ m2.reply_received = some "Yo" ∧ m2.reply_received_at = some 7
      ∧ m2.status = MessageStatus.Replied.as_str
      ∧ st.messages = exS2.messages.map
          (fun m => if m.id = 1 then repliedUpdate 7 "Yo" m else m) :=
  (C7_record_reply 7 1 "Yo" exS2).2 ⟨exMsgEnqueued, by decide, rfl⟩

/-- C10: RequestAiReply on an existing message rewrites only that row, and of
it only the `ai_reply` and `status` columns; `leads_id`, `message_sent`,
`sent_at`, `reply_received`, `reply_received_at`, `ai_reply_sent`,
`created_at`, `follow_up_at`, `closed_at` are unchanged and every other
Message row is untouched. -/
theorem C10_ai_reply_frame {now mid : Nat} {s st : Store} {m2 : Message}
    (h : ai_reply now mid s = .ok (st, m2)) :
    st.messages = s.messages.map (fun m => if m.id = mid then aiEnqueuedUpdate m else m)
    ∧ (∀ m ∈ s.messages, m.id ≠ mid → m ∈ st.messages)
    ∧ (∀ m : Message, (aiEnqueuedUpdate m).leads_id = m.leads_id
        ∧ (aiEnqueuedUpdate m).message_sent = m.message_sent
        ∧ (aiEnqueuedUpdate m).sent_at = m.sent_at
        ∧ (aiEnqueuedUpdate m).reply_received = m.reply_received
        ∧ (aiEnqueuedUpdate m).reply_received_at = m.reply_received_at
        ∧ (aiEnqueuedUpdate m).ai_reply_sent = m.ai_reply_sent
        ∧ (aiEnqueuedUpdate m).created_at = m.created_at
        ∧ (aiEnqueuedUpdate m).follow_up_at = m.follow_up_at
        ∧ (aiEnqueuedUpdate m).closed_at = m.closed_at) := by
  have hmsg : st.messages
      = s.messages.map (fun m => if m.id = mid then aiEnqueuedUpdate m else m) := by
    unfold ai_reply at h
    rcases hf : s.messages.find? (fun m => m.id == mid) with _ | m0
    · rw [hf] at h
      exact absurd h (by simp)
    · rw [hf] at h
      injection h with hp
      injection hp with h1 h2
      rw [← h1]
      rfl
  refine ⟨hmsg, ?_, ?_⟩
  · intro m hm hne
    rw [hmsg]
    exact List.mem_map.2 ⟨m, hm, if_neg hne⟩
  · intro m
    exact ⟨rfl, rfl, rfl, rfl, rfl, rfl, rfl, rfl, rfl⟩

/-- C10 witnessed on the concrete store `exS2`. -/
theorem C10_ai_reply_frame_witness :
    (log_outreach 3 1 MessageStatus.AiEnqueued
        (updateMessage 1 aiEnqueuedUpdate exS2)).messages
      = exS2.messages.map (fun m => if m.id = 1 then aiEnqueuedUpdate m else m) :=
  (C10_ai_reply_frame (show ai_reply 3 1 exS2
      = .ok (log_outreach 3 1 MessageStatus.AiEnqueued
               (updateMessage 1 aiEnqueuedUpdate exS2),
             aiEnqueuedUpdate exMsgEnqueued) from rfl)).1

/-- C1 amended, witnessed: on `exS2`, RecordReply whose UPDATE fails leaves
the store exactly as it was (no orphan audit row, no partial write). -/
theorem C1_update_first_witness :
    (reply_to_message_fi 3 1 "x" true false exS2).1 = exS2 :=
  (C1_update_first 3 (fun _ => false) (fun _ => false) 1 "x" true false exS2).2.2.2.2.1

end SalesApp
